import Mathlib

/-!
Verification development for the hybrid RAG + SQL retail-analytics agent.

The Python sources embedded here:
  * src/agent/graph_hybrid.py      (orchestrator state machine, routing, repair,
                                    answer coercion, confidence scoring)
  * src/agent/dspy_signatures.py   (Router.forward, NLToSQL.forward and
                                    _fix_sql_typos, Synthesizer.forward)
  * src/agent/tools/sqlite_tool.py (SQLiteTool.execute_query)
  * src/agent/rag/retrieval.py     (chunk identifiers)

Strings are modelled as `List Char` (`Str`).  Python floats are modelled as
rationals (`ℚ`): every constant appearing in the confidence computation is
exactly representable and the claims concern the arithmetic structure, not
IEEE rounding.  External capabilities (the language model calls, the TF-IDF
retriever, the SQLite engine) are inputs of the transition steps; everything
the repository's own code computes is embedded as executable definitions.
-/

namespace RetailAgent

abbrev Str := List Char

/-- Shorthand: the character list of a string literal. -/
def cs (s : String) : Str := s.data

/-- Python `\s` / `str.strip` whitespace (ASCII range, as produced here). -/
def isPyWS (c : Char) : Bool :=
  c = ' ' || c = '\t' || c = '\n' || c = '\r' || c = '\x0b' || c = '\x0c'

/-- Python `\w` word character (ASCII; the SQL strings handled are ASCII). -/
def isWordChar (c : Char) : Bool :=
  ('a' ≤ c && c ≤ 'z') || ('A' ≤ c && c ≤ 'Z') || ('0' ≤ c && c ≤ '9') || c = '_'

/-- ASCII decimal digit, Python `\d` on the ASCII strings handled here. -/
def isDigitChar (c : Char) : Bool := '0' ≤ c && c ≤ '9'

/-- Python `str.lower` on ASCII text. -/
def pyLower (s : Str) : Str := s.map Char.toLower

/-- Python `str.upper` on ASCII text. -/
def pyUpper (s : Str) : Str := s.map Char.toUpper

/-- Python `str.strip()` with default whitespace. -/
def pyStrip (s : Str) : Str :=
  ((s.dropWhile isPyWS).reverse.dropWhile isPyWS).reverse

/-- Python `needle in haystack` for strings (substring test). -/
def hasSub (q : Str) : Str → Bool
  | [] => q.isPrefixOf []
  | c :: t => q.isPrefixOf (c :: t) || hasSub q t

/-- Python `str.replace p r`: replace every non-overlapping occurrence of `p`
by `r`, scanning left to right.  Structural recursion on a fuel bounded by
the string length (each step consumes at least one character), so that the
kernel can evaluate it; `pyReplace` below supplies sufficient fuel.  The
sources never call it with an empty pattern; on an empty pattern this
embedding returns the string unchanged. -/
def pyReplaceF (p r : Str) : Nat → Str → Str
  | _, [] => []
  | 0, s => s
  | fuel + 1, c :: t =>
    if p ≠ [] ∧ p.isPrefixOf (c :: t) then
      r ++ pyReplaceF p r fuel ((c :: t).drop p.length)
    else
      c :: pyReplaceF p r fuel t

def pyReplace (p r s : Str) : Str := pyReplaceF p r s.length s

/-- Fuel irrelevance: any fuel at least the string length gives the same
result, so `pyReplace`'s equations take their natural form. -/
lemma pyReplaceF_irrel (p r : Str) :
    ∀ n m s, s.length ≤ n → s.length ≤ m → pyReplaceF p r n s = pyReplaceF p r m s := by
  intro n
  induction n with
  | zero =>
    intro m s hn _
    have : s = [] := List.eq_nil_of_length_eq_zero (Nat.le_zero.mp hn)
    subst this
    cases m <;> rfl
  | succ n ih =>
    intro m s hn hm
    cases s with
    | nil => cases m <;> rfl
    | cons c t =>
      cases m with
      | zero => exact absurd hm (by simp)
      | succ m =>
        simp only [pyReplaceF]
        by_cases h : p ≠ [] ∧ p.isPrefixOf (c :: t)
        · rw [if_pos h, if_pos h]
          have hp : 0 < p.length := List.length_pos.mpr h.1
          have hd : ((c :: t).drop p.length).length ≤ n := by
            simp only [List.length_drop, List.length_cons]
            simp only [List.length_cons] at hn
            omega
          have hd' : ((c :: t).drop p.length).length ≤ m := by
            simp only [List.length_drop, List.length_cons]
            simp only [List.length_cons] at hm
            omega
          rw [ih m _ hd hd']
        · rw [if_neg h, if_neg h]
          have ht : t.length ≤ n := by simp only [List.length_cons] at hn; omega
          have ht' : t.length ≤ m := by simp only [List.length_cons] at hm; omega
          rw [ih m t ht ht']

/-- Python `str.count` (non-overlapping occurrences, left to right), with the
same fuel scheme.  The sources only count nonempty patterns. -/
def pyCountF (p : Str) : Nat → Str → Nat
  | _, [] => 0
  | 0, _ => 0
  | fuel + 1, c :: t =>
    if p ≠ [] ∧ p.isPrefixOf (c :: t) then
      1 + pyCountF p fuel ((c :: t).drop p.length)
    else
      pyCountF p fuel t

def pyCount (p s : Str) : Nat := pyCountF p s.length s

/-- Python `str.startswith`. -/
def pyStartsWith (p s : Str) : Bool := p.isPrefixOf s

/-- Python `str.endswith`. -/
def pyEndsWith (p s : Str) : Bool := p.reverse.isPrefixOf s.reverse

/-! ## Data model

`PyVal` models a Python value stored in a result row: `num n` stands for any
value `v` for which `int(float(v))` evaluates to the integer `n` (ints, floats
and numeric strings; the truncation toward zero is already folded into `n`),
and `other` stands for any value on which that conversion raises.  `SqlRes`
is the result dictionary built by `SQLiteTool.execute_query`. -/

inductive PyVal where
  | num (n : ℤ)
  | other
deriving DecidableEq, Repr

/-- A result row: a Python dict, column name to value, in column order. -/
abbrev Row := List (Str × PyVal)

/-- The result structure of `SQLiteTool.execute_query`
(src/agent/tools/sqlite_tool.py lines 71-92). -/
structure SqlRes where
  success : Bool
  columns : List Str
  rows : List Row
  rowCount : Nat
  error : Option Str
deriving DecidableEq, Repr

/-- `SQLiteTool.execute_query` (sqlite_tool.py lines 66-92).  The SQLite
engine's reaction to the query string is the `outcome` argument: `.ok`
carries the cursor's column names and fetched rows, `.error e` a raised
`sqlite3.Error` with message `e`.  The function itself never raises: the
`except` arm turns the error into fields of the result dictionary, leaving
the initial defaults for `columns`, `rows` and `row_count`. -/
def executeQuery (outcome : Except Str (List Str × List Row)) : SqlRes :=
  match outcome with
  | .ok (cols, rows) =>
    { success := true, columns := cols, rows := rows,
      rowCount := rows.length, error := none }
  | .error e =>
    { success := false, columns := [], rows := [], rowCount := 0, error := some e }

/-- Helper invariant used by later claims: a failed execution reports an
error message and carries no rows. -/
theorem executeQuery_wf (o : Except Str (List Str × List Row)) :
    (executeQuery o).success = false →
      (executeQuery o).rows = [] ∧ (executeQuery o).error ≠ none := by
  cases o <;> simp [executeQuery]

/-! ## Router (src/agent/dspy_signatures.py, `Router.forward`, lines 31-42)

The classifier capability is external and may raise; its outcome is the
`Except` argument.  `Router.forward` calls it with **no** try/except: a raised
error propagates to `_router_node` (graph_hybrid.py lines 125-130), which does
not catch it either.  Only a successful result is normalized. -/

inductive QT where
  | rag
  | sql
  | hybrid
deriving DecidableEq, Repr

/-- The output normalization of `Router.forward` (lines 34-42). -/
def normalizeQueryType (raw : Str) : QT :=
  let q := pyLower (pyStrip raw)
  if hasSub (cs "rag") q || hasSub (cs "doc") q then .rag
  else if hasSub (cs "sql") q || hasSub (cs "database") q || hasSub (cs "db") q then .sql
  else .hybrid

/-- `Router.forward` (dspy_signatures.py lines 31-42): the classifier call is
not guarded, so an error outcome propagates unchanged. -/
def routerForward (cap : Except Str Str) : Except Str QT :=
  match cap with
  | .error e => .error e
  | .ok r => .ok (normalizeQueryType r)

/-! ## Agent state (graph_hybrid.py, `AgentState`, lines 16-34)

`sqlResults = none` models the initial empty dict `{}` (falsy, and `.get`
returns the default on it).  The trace list only records log strings with
wall-clock timestamps and is read by no computation, so it is omitted. -/

/-- A retrieved document chunk (retrieval.py, `Chunk`).  The TF-IDF relevance
score is modelled as a rational. -/
structure Chunk where
  chunkId : Str
  content : Str
  source : Str
  score : ℚ
deriving DecidableEq, Repr

/-- The repair-kind tag written by `_repair_node`: the Python strings
"sql", "output" and "end". -/
inductive RTag where
  | sql
  | output
  | done
deriving DecidableEq, Repr

/-- A coerced final answer as a Python runtime value, as far as
`_validate_answer_format` inspects it (isinstance checks and dict size). -/
inductive AnsVal where
  | aInt (n : ℤ)
  | aFloat (q : ℚ)
  | aStr (s : Str)
  | aList (l : List (List (Str × PyVal)))
  | aDict (d : List (Str × PyVal))
deriving DecidableEq, Repr

structure AgentState where
  question : Str
  questionId : Str
  formatHint : Str
  queryType : Option QT
  retrievedChunks : List Chunk
  context : Str
  sqlQuery : Str
  sqlResults : Option SqlRes
  finalAnswer : Option AnsVal
  explanation : Str
  citations : List Str
  confidence : ℚ
  repairCount : Nat
  repairType : Option RTag
  error : Option Str
  dbTablesUsed : List Str
deriving DecidableEq, Repr

/-- `sql_results.get("success", False)` / truthiness of `.get("success")`
on a possibly-empty dict. -/
def optSuccess (o : Option SqlRes) : Bool := (o.map SqlRes.success).getD false

/-- `sql_results.get("rows", ...)` on a possibly-empty dict. -/
def optRows (o : Option SqlRes) : List Row := (o.map SqlRes.rows).getD []

/-- `sql_results.get("row_count", 0)` on a possibly-empty dict. -/
def optRowCount (o : Option SqlRes) : Nat := (o.map SqlRes.rowCount).getD 0

/-- The initial per-request state (graph_hybrid.py, `process_question`,
lines 676-694): all fields empty or zeroed. -/
def initState (question questionId formatHint : Str) : AgentState :=
  { question := question, questionId := questionId, formatHint := formatHint,
    queryType := none, retrievedChunks := [], context := [], sqlQuery := [],
    sqlResults := none, finalAnswer := none, explanation := [], citations := [],
    confidence := 0, repairCount := 0, repairType := none, error := none,
    dbTablesUsed := [] }

/-! ## Answer format validation (graph_hybrid.py, `_validate_answer_format`,
lines 299-312) -/

def validateAnswerFormat (answer : Option AnsVal) (formatHint : Str) : Bool :=
  match answer with
  | none => false
  | some a =>
    if formatHint = cs "int" then
      match a with | .aInt _ => true | _ => false
    else if formatHint = cs "float" then
      match a with | .aInt _ => true | .aFloat _ => true | _ => false
    else if pyStartsWith (cs "list[") formatHint then
      match a with | .aList _ => true | _ => false
    else if pyStartsWith (cs "\x7b") formatHint then
      match a with | .aDict d => !d.isEmpty | _ => false
    else true

/-! ## Confidence (graph_hybrid.py, `_calculate_confidence`, lines 657-673) -/

def calcConfidence (s : AgentState) : ℚ :=
  let c : ℚ := 1/2
  let c := if optSuccess s.sqlResults then c + 2/10 else c
  let c := if 0 < optRowCount s.sqlResults then c + 1/10 else c
  let c :=
    if s.retrievedChunks ≠ [] then
      c + min (((s.retrievedChunks.map Chunk.score).sum / s.retrievedChunks.length) * (2/10))
              (2/10)
    else c
  let c := c - s.repairCount * (1/10)
  max 0 (min 1 c)

/-! ## Integer answer coercion (graph_hybrid.py, `_format_answer` lines
582-606 and `_extract_from_sql_results` lines 506-519, `format_hint == "int"`
branch).

`re.search(r'\d+', s)` finds the first maximal digit run; `int` of that run
is its value.  For a string containing no digit, `int(float(s))` always
raises in Python (the only digit-free float-parsable strings are nan/inf
forms, and `int()` raises on those), so control always reaches the
row-fallback arm of the `except`. -/

/-- The first maximal run of ASCII digits of a string, Python
`re.search(r'\d+', s)`. -/
def findDigitRun : Str → Option Str
  | [] => none
  | c :: t => if isDigitChar c then some (c :: t.takeWhile isDigitChar) else findDigitRun t

/-- `int` of a digit run. -/
def digitsToNat (ds : Str) : Nat := ds.foldl (fun a c => a * 10 + (c.toNat - 48)) 0

/-- First value of a row on which `int(float(val))` succeeds
(the loop `for val in rows[0].values(): try: return int(float(val))`). -/
def firstNumVal : Row → Option ℤ
  | [] => none
  | (_, PyVal.num n) :: _ => some n
  | (_, PyVal.other) :: t => firstNumVal t

/-- `_extract_from_sql_results` with `format_hint == "int"` (lines 506-519):
`None` unless execution succeeded with at least one row; then the first
convertible value of the first row, else `0`. -/
def extractFromSqlResultsInt (res : Option SqlRes) : Option ℤ :=
  if !(optSuccess res && !(optRows res).isEmpty) then none
  else
    match optRows res with
    | [] => some 0
    | r :: _ => some ((firstNumVal r).getD 0)

/-- `_format_answer` with `format_hint == "int"` (lines 582-606).  `answer`
is the synthesizer's free-text answer (`None` when the synthesizer failed or
returned nothing). -/
def formatAnswerInt (answer : Option Str) (res : Option SqlRes) : Option ℤ :=
  if answer.isNone || (pyStrip (answer.getD [])).isEmpty then
    -- lines 583-586
    if optSuccess res && !(optRows res).isEmpty then extractFromSqlResultsInt res
    else none
  else
    let a := pyStrip (answer.getD [])
    match findDigitRun a with
    | some ds => some ((digitsToNat ds : ℤ))
    | none =>
      -- the int(float(...)) attempt raises (see section comment), except arm:
      if optSuccess res && !(optRows res).isEmpty then
        some (match optRows res with
              | [] => 0
              | r :: _ => (firstNumVal r).getD 0)
      else some 0

/-- Does the free-text answer contain a numeric substring? -/
def textHasDigit (answer : Option Str) : Bool :=
  match answer with
  | none => false
  | some a => (findDigitRun a).isSome

/-- Does any query result row contain a numeric value? -/
def rowsHaveNum (res : Option SqlRes) : Bool :=
  (optRows res).any fun r =>
    r.any fun kv => match kv.2 with | .num _ => true | .other => false

/-- The value the claim describes: the integer parsed from the first numeric
substring of the free-text answer; otherwise the first numeric value of the
first result row; otherwise 0. -/
def claimedIntAnswer (answer : Option Str) (res : Option SqlRes) : ℤ :=
  let fromText : Option ℤ :=
    match answer with
    | none => none
    | some a => (findDigitRun a).map (fun ds => ((digitsToNat ds : ℤ)))
  let fromRow : Option ℤ :=
    match optRows res with
    | [] => none
    | r :: _ => firstNumVal r
  (fromText.orElse (fun _ => fromRow)).getD 0

/-! ## Supporting lemmas: stripping does not move the first digit run -/

lemma ws_not_digit (c : Char) (h : isPyWS c = true) : isDigitChar c = false := by
  simp only [isPyWS, Bool.or_eq_true, decide_eq_true_eq] at h
  rcases h with ((((h | h) | h) | h) | h) | h <;> subst h <;> decide

lemma takeWhile_append_of_nil {p : Char → Bool} {t : Str}
    (ht : t.takeWhile p = []) (s : Str) :
    (s ++ t).takeWhile p = s.takeWhile p := by
  induction s with
  | nil => simpa using ht
  | cons c s ih =>
    by_cases hc : p c
    · simp [List.takeWhile, hc, ih]
    · simp [List.takeWhile, hc]

lemma takeWhile_digit_of_ws {t : Str} (ht : ∀ c ∈ t, isPyWS c = true) :
    t.takeWhile isDigitChar = [] := by
  cases t with
  | nil => rfl
  | cons c t =>
    have : isDigitChar c = false := ws_not_digit c (ht c (List.mem_cons_self c t))
    simp [List.takeWhile, this]

lemma findDigitRun_append_ws (s t : Str) (ht : ∀ c ∈ t, isPyWS c = true) :
    findDigitRun (s ++ t) = findDigitRun s := by
  induction s with
  | nil =>
    simp only [List.nil_append]
    induction t with
    | nil => rfl
    | cons c t iht =>
      have hc : isPyWS c = true := ht c (List.mem_cons_self c t)
      have : isDigitChar c = false := ws_not_digit c hc
      simp only [findDigitRun, this, Bool.false_eq_true, if_false]
      exact iht (fun c hc' => ht c (List.mem_cons_of_mem _ hc'))
  | cons c s ih =>
    by_cases hc : isDigitChar c
    · simp [findDigitRun, hc, takeWhile_append_of_nil (takeWhile_digit_of_ws ht)]
    · simp [findDigitRun, hc, ih]

lemma findDigitRun_dropWhile_ws (s : Str) :
    findDigitRun (s.dropWhile isPyWS) = findDigitRun s := by
  induction s with
  | nil => rfl
  | cons c s ih =>
    by_cases hc : isPyWS c
    · have : isDigitChar c = false := ws_not_digit c hc
      simp [List.dropWhile, hc, findDigitRun, this, ih]
    · simp [List.dropWhile, hc]

lemma findDigitRun_pyStrip (s : Str) : findDigitRun (pyStrip s) = findDigitRun s := by
  unfold pyStrip
  set u := s.dropWhile isPyWS with hu
  have hdecomp : u = ((u.reverse.dropWhile isPyWS).reverse) ++ ((u.reverse.takeWhile isPyWS).reverse) := by
    calc u = u.reverse.reverse := (List.reverse_reverse u).symm
      _ = (u.reverse.takeWhile isPyWS ++ u.reverse.dropWhile isPyWS).reverse := by
            rw [List.takeWhile_append_dropWhile]
      _ = (u.reverse.dropWhile isPyWS).reverse ++ (u.reverse.takeWhile isPyWS).reverse :=
            List.reverse_append _ _
  have hws : ∀ c ∈ (u.reverse.takeWhile isPyWS).reverse, isPyWS c = true := by
    intro c hc
    exact List.mem_takeWhile_imp (List.mem_reverse.mp hc)
  calc findDigitRun (u.reverse.dropWhile isPyWS).reverse
      = findDigitRun ((u.reverse.dropWhile isPyWS).reverse ++ (u.reverse.takeWhile isPyWS).reverse) :=
        (findDigitRun_append_ws _ _ hws).symm
    _ = findDigitRun u := by rw [← hdecomp]
    _ = findDigitRun s := findDigitRun_dropWhile_ws s

/-! ## Claim theorems: C9, C5, C2, C6 -/

/-- C9: the query-execution operation never raises: for every engine outcome
it returns a full result structure; a failure is reported via
`success = false` together with a non-null error message (and the default
empty row set), and `row_count` always equals the number of returned rows. -/
theorem C9_execute_query_reports_failures_in_result :
    (∀ o : Except Str (List Str × List Row),
      (executeQuery o).rowCount = (executeQuery o).rows.length) ∧
    (∀ cols rows, executeQuery (.ok (cols, rows)) =
      { success := true, columns := cols, rows := rows,
        rowCount := rows.length, error := none }) ∧
    (∀ e, executeQuery (.error e) =
      { success := false, columns := [], rows := [],
        rowCount := 0, error := some e }) := by
  refine ⟨fun o => ?_, fun cols rows => rfl, fun e => rfl⟩
  cases o with
  | ok p => cases p; rfl
  | error e => rfl

/-- C5: the confidence score equals 0.5, plus 0.2 if execution succeeded,
plus 0.1 if the row count is positive, plus the capped mean-relevance
contribution when chunks were retrieved, minus 0.1 per repair, clamped to
[0,1]. -/
theorem C5_confidence_formula :
    ∀ s : AgentState,
      calcConfidence s =
        max 0 (min 1 ((1:ℚ)/2
          + (if optSuccess s.sqlResults then 2/10 else 0)
          + (if 0 < optRowCount s.sqlResults then 1/10 else 0)
          + (if s.retrievedChunks ≠ [] then
              min (((s.retrievedChunks.map Chunk.score).sum / s.retrievedChunks.length) * (2/10))
                  (2/10)
             else 0)
          - s.repairCount * (1/10)))
      ∧ 0 ≤ calcConfidence s ∧ calcConfidence s ≤ 1 := by
  intro s
  refine ⟨?_, ?_, ?_⟩
  · unfold calcConfidence
    split_ifs <;> exact congrArg (fun x => max 0 (min 1 x)) (by ring)
  · unfold calcConfidence
    exact le_max_left 0 _
  · unfold calcConfidence
    exact max_le (by norm_num) (min_le_left _ _)

/-- C2, counterexample: when the classifier capability raises,
`Router.forward` propagates the error unchanged — the pipeline does not
recover via a keyword heuristic, contradicting the claim that a
classification error is never surfaced. -/
theorem C2_counterexample_error_propagates :
    routerForward (.error (cs "classifier raised")) =
      .error (cs "classifier raised") := rfl

/-- C2, amended: classification failure is not recovered — `Router.forward`
propagates any classifier error unchanged; only a successful classifier
output is normalized deterministically (output containing "rag" or "doc" →
rag; else containing "sql", "database" or "db" → sql; otherwise hybrid). -/
theorem C2_amended_router_propagates_errors :
    (∀ e, routerForward (.error e) = .error e) ∧
    (∀ r, (hasSub (cs "rag") (pyLower (pyStrip r))
            || hasSub (cs "doc") (pyLower (pyStrip r))) = true →
        routerForward (.ok r) = .ok QT.rag) ∧
    (∀ r, (hasSub (cs "rag") (pyLower (pyStrip r))
            || hasSub (cs "doc") (pyLower (pyStrip r))) = false →
          (hasSub (cs "sql") (pyLower (pyStrip r))
            || hasSub (cs "database") (pyLower (pyStrip r))
            || hasSub (cs "db") (pyLower (pyStrip r))) = true →
        routerForward (.ok r) = .ok QT.sql) ∧
    (∀ r, (hasSub (cs "rag") (pyLower (pyStrip r))
            || hasSub (cs "doc") (pyLower (pyStrip r))) = false →
          (hasSub (cs "sql") (pyLower (pyStrip r))
            || hasSub (cs "database") (pyLower (pyStrip r))
            || hasSub (cs "db") (pyLower (pyStrip r))) = false →
        routerForward (.ok r) = .ok QT.hybrid) := by
  refine ⟨fun e => rfl, fun r h => ?_, fun r h1 h2 => ?_, fun r h1 h2 => ?_⟩
  · simp [routerForward, normalizeQueryType, h]
  · simp [routerForward, normalizeQueryType, h1, h2]
  · simp [routerForward, normalizeQueryType, h1, h2]

/-- Witness for the amended C2 theorem at concrete classifier outputs. -/
theorem C2_amended_witness :
    routerForward (.ok (cs "rag")) = .ok QT.rag ∧
    routerForward (.ok (cs " SQL ")) = .ok QT.sql ∧
    routerForward (.ok (cs "mixed")) = .ok QT.hybrid :=
  ⟨C2_amended_router_propagates_errors.2.1 (cs "rag") (by decide),
   C2_amended_router_propagates_errors.2.2.1 (cs " SQL ") (by decide) (by decide),
   C2_amended_router_propagates_errors.2.2.2 (cs "mixed") (by decide) (by decide)⟩

/-- C6: for every answer coerced against the integer format spec, given the
well-formedness `execute_query` guarantees (a failed execution carries no
rows) and at least one numeric value in the answer text or the result rows,
the result is exactly the integer the claim describes — the first numeric
substring of the free-text answer, else the first numeric value of the first
result row, else 0 — and in particular never null. -/
theorem C6_integer_coercion (answer : Option Str) (res : Option SqlRes)
    (hwf : optSuccess res = false → optRows res = [])
    (hnum : textHasDigit answer = true ∨ rowsHaveNum res = true) :
    formatAnswerInt answer res = some (claimedIntAnswer answer res) := by
  unfold formatAnswerInt claimedIntAnswer
  cases answer with
  | none =>
    simp only [Option.isNone_none, Bool.true_or, if_true, Option.getD_none]
    have htext : textHasDigit (none : Option Str) = false := rfl
    have hrows : rowsHaveNum res = true := by
      rcases hnum with h | h
      · exact absurd h (by simp [htext])
      · exact h
    have hne : optRows res ≠ [] := by
      intro h0
      rw [rowsHaveNum, h0] at hrows
      simp at hrows
    have hsucc : optSuccess res = true := by
      by_contra hs
      exact hne (hwf (Bool.eq_false_iff.mpr hs))
    cases hr : optRows res with
    | nil => exact absurd hr hne
    | cons r t =>
      simp [extractFromSqlResultsInt, hsucc, hr]
  | some a =>
    by_cases hempty : (pyStrip a).isEmpty
    · -- a blank answer string behaves like a missing one
      have hnodigit : findDigitRun a = none := by
        rw [← findDigitRun_pyStrip]
        cases h : pyStrip a with
        | nil => rfl
        | cons c t => rw [h] at hempty; simp [List.isEmpty] at hempty
      have htext : textHasDigit (some a) = false := by
        simp [textHasDigit, hnodigit]
      have hrows : rowsHaveNum res = true := by
        rcases hnum with h | h
        · exact absurd h (by simp [htext])
        · exact h
      have hne : optRows res ≠ [] := by
        intro h0
        rw [rowsHaveNum, h0] at hrows
        simp at hrows
      have hsucc : optSuccess res = true := by
        by_contra hs
        exact hne (hwf (Bool.eq_false_iff.mpr hs))
      cases hr : optRows res with
      | nil => exact absurd hr hne
      | cons r t =>
        simp [extractFromSqlResultsInt, hsucc, hr, hempty, hnodigit]
    · simp only [Option.isNone_some, Bool.false_or, Option.getD_some, hempty, if_false]
      rw [findDigitRun_pyStrip]
      cases hd : findDigitRun a with
      | some ds => simp
      | none =>
        by_cases hs : optSuccess res = true
        · cases hr : optRows res with
          | nil => simp [hs, hr]
          | cons r t => simp [hs, hr]
        · have hr : optRows res = [] := hwf (Bool.eq_false_iff.mpr hs)
          simp [Bool.eq_false_iff.mpr hs, hr]

/-- Witness for C6 at a concrete synthesizer answer and result set. -/
theorem C6_integer_coercion_witness :
    formatAnswerInt (some (cs "The total is 42"))
        (some { success := true, columns := [cs "total"],
                rows := [[(cs "total", PyVal.num 42)]], rowCount := 1,
                error := none }) = some 42 := by
  have h := C6_integer_coercion (some (cs "The total is 42"))
    (some { success := true, columns := [cs "total"],
            rows := [[(cs "total", PyVal.num 42)]], rowCount := 1,
            error := none }) (by decide) (Or.inl (by decide))
  rw [h]
  decide

/-! ## A small backtracking regex matcher

`_fix_sql_typos` and `_validate_sql_preflight` use a handful of `re`
patterns.  They are embedded as sequences of items below, matched with the
same backtracking order Python's `re` uses on them: alternatives and the
optional group try the present/consuming branch first, greedy classes
consume as much as possible first, lazy `.*?` consumes as little as
possible first.  `\b` occurs in these patterns only adjacent to a word
character, so it is the check that the neighbouring character on the other
side is absent or not a word character. -/

/-- ASCII letter, `[A-Za-z]` (and `[A-Z]` under `re.IGNORECASE`). -/
def isAsciiLetter (c : Char) : Bool :=
  ('a' ≤ c && c ≤ 'z') || ('A' ≤ c && c ≤ 'Z')

inductive RItem where
  /-- a literal, case-insensitively when `ci` -/
  | lit (l : Str) (ci : Bool)
  /-- `.*?`; matches `\n` only when `dotall` -/
  | lazyDot (dotall : Bool)
  /-- greedy `[class]*` -/
  | classStar (p : Char → Bool)
  /-- greedy `[class]+` -/
  | classPlus (p : Char → Bool)
  /-- `[class]` -/
  | classOnce (p : Char → Bool)
  /-- `(?:l|)` -/
  | altLitEmpty (l : Str) (ci : Bool)
  /-- `(\w+\.)?` -/
  | optWordDot
  /-- continuation state of `optWordDot` after its first word character -/
  | wordDotCont
  /-- `\b` right after a word character: next is absent or not a word char -/
  | nonWordAhead
  /-- `(?!...)` -/
  | negLook (g : List RItem)

mutual

def itemWeight : RItem → Nat
  | .negLook g => 1 + itemsWeight g
  | _ => 1

def itemsWeight : List RItem → Nat
  | [] => 0
  | i :: t => itemWeight i + itemsWeight t

end

/-- Literal prefix test, optionally case-insensitive (ASCII lowering, as in
`re.IGNORECASE` over the ASCII SQL text handled here). -/
def litPrefixAt : Str → Bool → Str → Bool
  | [], _, _ => true
  | _ :: _, _, [] => false
  | c :: l, ci, d :: s =>
    (if ci then c.toLower = d.toLower else c = d) && litPrefixAt l ci s

/-- Backtracking match of an item sequence at the start of `s`; returns the
remainder after the matched span.  Structural recursion on a fuel (every
recursive call reduces `s.length + itemsWeight items`, so the fuel
`rmatch` supplies below is sufficient and never reaches zero). -/
def rmatchF : Nat → List RItem → Str → Option Str
  | 0, _, _ => none
  | _ + 1, [], s => some s
  | fuel + 1, .lit l ci :: rest, s =>
    if litPrefixAt l ci s then rmatchF fuel rest (s.drop l.length) else none
  | fuel + 1, .lazyDot _ :: rest, [] => rmatchF fuel rest []
  | fuel + 1, .lazyDot da :: rest, c :: t =>
    (rmatchF fuel rest (c :: t)).orElse fun _ =>
      if da || c ≠ '\n' then rmatchF fuel (.lazyDot da :: rest) t else none
  | fuel + 1, .classStar _ :: rest, [] => rmatchF fuel rest []
  | fuel + 1, .classStar p :: rest, c :: t =>
    (if p c then rmatchF fuel (.classStar p :: rest) t else none).orElse
      fun _ => rmatchF fuel rest (c :: t)
  | _ + 1, .classPlus _ :: _, [] => none
  | fuel + 1, .classPlus p :: rest, c :: t =>
    if p c then rmatchF fuel (.classStar p :: rest) t else none
  | _ + 1, .classOnce _ :: _, [] => none
  | fuel + 1, .classOnce p :: rest, c :: t => if p c then rmatchF fuel rest t else none
  | fuel + 1, .altLitEmpty l ci :: rest, s =>
    (if litPrefixAt l ci s then rmatchF fuel rest (s.drop l.length) else none).orElse
      fun _ => rmatchF fuel rest s
  | fuel + 1, .optWordDot :: rest, [] => rmatchF fuel rest []
  | fuel + 1, .optWordDot :: rest, c :: t =>
    (if isWordChar c then rmatchF fuel (.wordDotCont :: rest) t else none).orElse
      fun _ => rmatchF fuel rest (c :: t)
  | _ + 1, .wordDotCont :: _, [] => none
  | fuel + 1, .wordDotCont :: rest, c :: t =>
    (if isWordChar c then rmatchF fuel (.wordDotCont :: rest) t else none).orElse
      fun _ => if c = '.' then rmatchF fuel rest t else none
  | fuel + 1, .nonWordAhead :: rest, [] => rmatchF fuel rest []
  | fuel + 1, .nonWordAhead :: rest, c :: t =>
    if isWordChar c then none else rmatchF fuel rest (c :: t)
  | fuel + 1, .negLook g :: rest, s =>
    if (rmatchF fuel g s).isSome then none else rmatchF fuel rest s

def rmatch (items : List RItem) (s : Str) : Option Str :=
  rmatchF (s.length + itemsWeight items + 1) items s

/-- A compiled pattern: the item sequence, and whether the pattern starts
with `\b` (all such patterns here continue with a word character, so the
boundary holds exactly when the preceding character is absent or non-word). -/
structure RPat where
  items : List RItem
  leadingWB : Bool := false

def canStartHere (wb : Bool) (prev : Option Char) : Bool :=
  !wb || (match prev with | none => true | some c => !isWordChar c)

/-- Last character of the span of `s` that a match consumed, leaving `rest`. -/
def matchedLast (s rest : Str) : Option Char :=
  (s.take (s.length - rest.length)).getLast?

/-- `re.sub`: replace every non-overlapping match, scanning left to right and
resuming after each matched span.  No pattern used here matches the empty
string; a hypothetical empty match is skipped over.  `prev` is the character
before the current position in the original string, for `\b`. -/
def rsubGoF (pat : RPat) (repl : Str) : Nat → Option Char → Str → Str
  | _, _, [] => []
  | 0, _, s => s
  | fuel + 1, prev, c :: t =>
    if canStartHere pat.leadingWB prev then
      match rmatch pat.items (c :: t) with
      | some rest =>
        if rest.length < (c :: t).length then
          repl ++ rsubGoF pat repl fuel (matchedLast (c :: t) rest) rest
        else c :: rsubGoF pat repl fuel (some c) t
      | none => c :: rsubGoF pat repl fuel (some c) t
    else c :: rsubGoF pat repl fuel (some c) t

def rsub (pat : RPat) (repl s : Str) : Str := rsubGoF pat repl s.length none s

/-- `re.search` as a Boolean: is there a match at any position? -/
def rsearchGo (pat : RPat) (prev : Option Char) : Str → Bool
  | [] => canStartHere pat.leadingWB prev && (rmatch pat.items []).isSome
  | c :: t =>
    (canStartHere pat.leadingWB prev && (rmatch pat.items (c :: t)).isSome)
    || rsearchGo pat (some c) t

def rsearch (pat : RPat) (s : Str) : Bool := rsearchGo pat none s

/-! ## The patterns of `_fix_sql_typos` and `_validate_sql_preflight` -/

/-- `r"SUM\(.*?UnitPrice.*?\)"`, `re.IGNORECASE`. -/
def sumUnitPricePat : RPat :=
  { items := [.lit (cs "SUM(") true, .lazyDot false, .lit (cs "UnitPrice") true,
              .lazyDot false, .lit (cs ")") true] }

/-- `r"SELECT .*? FROM"`, `re.IGNORECASE | re.DOTALL`. -/
def selectFromPat : RPat :=
  { items := [.lit (cs "SELECT ") true, .lazyDot true, .lit (cs " FROM") true] }

/-- `r"(\w+\.)?CostOfGoods\w*"`, `re.IGNORECASE`. -/
def costOfGoodsPat : RPat :=
  { items := [.optWordDot, .lit (cs "CostOfGoods") true, .classStar isWordChar] }

/-- `r"(\w+\.)?StandardCost\w*"`, `re.IGNORECASE`. -/
def standardCostPat : RPat :=
  { items := [.optWordDot, .lit (cs "StandardCost") true, .classStar isWordChar] }

/-- `r"strftime\s*\(.*?(?:o\.|)OrderDate.*?\)\s*BETWEEN"`, `re.IGNORECASE`. -/
def strftimeBetweenPat : RPat :=
  { items := [.lit (cs "strftime") true, .classStar isPyWS, .lit (cs "(") true,
              .lazyDot false, .altLitEmpty (cs "o.") true, .lit (cs "OrderDate") true,
              .lazyDot false, .lit (cs ")") true, .classStar isPyWS,
              .lit (cs "BETWEEN") true] }

/-- `r"JOIN\s+Categories\s+c\b"`, `re.IGNORECASE`. -/
def joinCategoriesCPat : RPat :=
  { items := [.lit (cs "JOIN") true, .classPlus isPyWS, .lit (cs "Categories") true,
              .classPlus isPyWS, .lit (cs "c") true, .nonWordAhead] }

/-- `r"\bc\.CategoryName\b"`; `ci` selects `re.IGNORECASE`
(`_fix_sql_typos` uses it, `_validate_sql_preflight` does not). -/
def cCategoryNamePat (ci : Bool) : RPat :=
  { items := [.lit (cs "c.CategoryName") ci, .nonWordAhead], leadingWB := true }

/-- `r"\bc\.CategoryID\b"`; `ci` as above. -/
def cCategoryIDPat (ci : Bool) : RPat :=
  { items := [.lit (cs "c.CategoryID") ci, .nonWordAhead], leadingWB := true }

/-- `r"BETWEEN\s+'[A-Z][A-Za-z\s]+'(?!\s*AND\s*'\d)"`, `re.IGNORECASE`
(under which `[A-Z]` matches every ASCII letter). -/
def badBetweenPat : RPat :=
  { items := [.lit (cs "BETWEEN") true, .classPlus isPyWS, .lit (cs "'") true,
              .classOnce isAsciiLetter,
              .classPlus (fun c => isAsciiLetter c || isPyWS c),
              .lit (cs "'") true,
              .negLook [.classStar isPyWS, .lit (cs "AND") true,
                        .classStar isPyWS, .lit (cs "'") true,
                        .classOnce isDigitChar]] }

/-- `r"SUM\s*\([^)]*BETWEEN"`, `re.IGNORECASE`. -/
def sumBetweenPat : RPat :=
  { items := [.lit (cs "SUM") true, .classStar isPyWS, .lit (cs "(") true,
              .classStar (fun c => c ≠ ')'), .lit (cs "BETWEEN") true] }

/-! ## `NLToSQL._fix_sql_typos` (dspy_signatures.py, lines 132-205) -/

/-- The category capitalization loop (lines 148-151): for each category,
`re.sub` of the lower-cased quoted literal by the capitalized quoted
literal, case-insensitively. -/
def categoriesFix (sql : Str) : Str :=
  let fixOne := fun (sql : Str) (pr : Str × Str) =>
    rsub { items := [.lit pr.1 true] } pr.2 sql
  [ (cs "'beverages'", cs "'Beverages'"),
    (cs "'condiments'", cs "'Condiments'"),
    (cs "'confections'", cs "'Confections'"),
    (cs "'dairy products'", cs "'Dairy Products'"),
    (cs "'grains/cereals'", cs "'Grains/Cereals'"),
    (cs "'meat/poultry'", cs "'Meat/Poultry'"),
    (cs "'produce'", cs "'Produce'"),
    (cs "'seafood'", cs "'Seafood'")
  ].foldl fixOne sql

/-- The year-shift replacements, the first step of `_fix_sql_typos`
(lines 136-138). -/
def fixYearTypos (sql : Str) : Str :=
  let sql := pyReplace (cs "'1996") (cs "'2016") sql
  let sql := pyReplace (cs "'1997") (cs "'2017") sql
  pyReplace (cs "'1998") (cs "'2018") sql

/-- `NLToSQL._fix_sql_typos` (lines 132-205), step for step. -/
def fixSqlTypos (sql0 : Str) : Str :=
  let sql := fixYearTypos sql0
  let sql := pyReplace (cs "BETWEDIR") (cs "BETWEEN") sql
  let sql := pyReplace (cs "BETWEWEN") (cs "BETWEEN") sql
  let sql := pyReplace (cs "BETWEWS WITH") (cs "BETWEEN") sql
  let sql := pyReplace (cs "BETWEWITH") (cs "BETWEEN") sql
  let sql := pyReplace (cs "BETWE") (cs "BETWEEN") sql
  let sql := pyReplace (cs "BETWEENEN") (cs "BETWEEN") sql
  let sql := pyReplace (cs "strftForms") (cs "strftime") sql
  let sql := categoriesFix sql
  -- lines 153-155; the needles hold upper-case letters while the haystack is
  -- lower-cased, so this guard is always False in Python; embedded verbatim
  let sql :=
    if (hasSub (cs "AS quantity") (pyLower sql)
        || hasSub (cs "AS total_quantity") (pyLower sql)) then
      if hasSub (cs "UnitPrice") sql then
        rsub sumUnitPricePat (cs "SUM(od.Quantity)") sql
      else sql
    else sql
  -- lines 156-159: AOV whole-query rewrite
  let sql :=
    if hasSub (cs "/ COUNT") sql && hasSub (cs "SUM(") sql then
      if hasSub (cs "AverageOrderValue") sql || hasSub (cs "AOV") sql then
        cs "SELECT ROUND(SUM(od.UnitPrice * od.Quantity * (1 - od.Discount)) / COUNT(DISTINCT o.OrderID), 2) AS AverageOrderValue FROM orders o JOIN order_items od ON o.OrderID = od.OrderID WHERE o.OrderDate BETWEEN '2017-12-01' AND '2017-12-31'"
      else sql
    else sql
  -- lines 160-167: margin SELECT-clause rewrite
  let sql :=
    if hasSub (cs "SUM(") sql && (hasSub (cs "AVG(") sql || 1 < pyCount (cs "SUM(") sql) then
      if hasSub (cs "margin") (pyLower sql) then
        rsub selectFromPat
          (cs "SELECT c.CompanyName, SUM((od.UnitPrice * od.Quantity * (1 - od.Discount)) - (od.UnitPrice * 0.7 * od.Quantity)) AS margin FROM")
          sql
      else sql
    else sql
  -- lines 168-172: cost columns and division typos
  let sql := rsub costOfGoodsPat (cs "(od.UnitPrice * 0.7)") sql
  let sql := rsub standardCostPat (cs "(od.UnitPrice * 0.7)") sql
  let sql := pyReplace (cs "/ 7)") (cs "* 0.7)") sql
  let sql := pyReplace (cs "/ 70)") (cs "* 0.7)") sql
  -- lines 174-176: strftime-wrapped OrderDate before BETWEEN
  let sql :=
    if rsearch strftimeBetweenPat sql then
      rsub strftimeBetweenPat (cs "o.OrderDate BETWEEN") sql
    else sql
  -- lines 177-181: CategoryName without Categories
  let sql :=
    if hasSub (cs "CategoryName") sql && !hasSub (cs "Categories") sql then
      let sql :=
        if hasSub (cs "JOIN products p") sql then
          pyReplace (cs "JOIN products p ON od.ProductID = p.ProductID")
            (cs "JOIN products p ON od.ProductID = p.ProductID JOIN Categories cat ON p.CategoryID = cat.CategoryID")
            sql
        else sql
      pyReplace (cs "c.CategoryName") (cs "cat.CategoryName") sql
    else sql
  -- lines 183-185: CompanyName without customers
  let sql :=
    if hasSub (cs "CompanyName") sql && !hasSub (cs "customers") (pyLower sql) then
      if hasSub (cs "FROM orders o") sql then
        pyReplace (cs "FROM orders o")
          (cs "FROM orders o JOIN customers c ON o.CustomerID = c.CustomerID") sql
      else sql
    else sql
  -- lines 187-190: Categories alias normalization
  let sql :=
    if hasSub (cs "Categories") sql then
      let sql := rsub joinCategoriesCPat (cs "JOIN Categories cat") sql
      let sql := rsub (cCategoryNamePat true) (cs "cat.CategoryName") sql
      rsub (cCategoryIDPat true) (cs "cat.CategoryID") sql
    else sql
  -- lines 192-198: backtick removal, alias prefix fixes
  let sql := pyReplace (cs "`") [] sql
  let sql :=
    if hasSub (cs "FROM orders o") sql then pyReplace (cs "orders.") (cs "o.") sql
    else sql
  let sql :=
    if hasSub (cs "JOIN order_items od") sql then pyReplace (cs "order_items.") (cs "od.") sql
    else sql
  let sql :=
    if hasSub (cs "FROM orders JOIN") sql && !hasSub (cs "FROM orders o JOIN") sql then
      pyReplace (cs "FROM orders JOIN") (cs "FROM orders o JOIN") sql
    else sql
  -- lines 200-203: parenthesis balancing
  let openP := (sql.filter (fun c => c = '(')).length
  let closeP := (sql.filter (fun c => c = ')')).length
  let sql := sql ++ List.replicate (openP - closeP) ')'
  pyStrip sql

/-- `_validate_sql_preflight` (graph_hybrid.py, lines 181-205):
`(ok?, error message)`. -/
def validateSqlPreflight (sql : Str) : Bool × Str :=
  let sqlUpper := pyUpper sql
  if rsearch badBetweenPat sql then
    (false, cs "Invalid date: use format 'YYYY-MM-DD' not text strings")
  else if (rsearch (cCategoryNamePat false) sql || rsearch (cCategoryIDPat false) sql)
      && !hasSub (cs "Categories c") sql && !hasSub (cs "categories c") sql then
    (false, cs "Alias 'c' used for CategoryName but Categories not aliased as 'c'. Use 'cat' for Categories")
  else if hasSub (cs "BETWELOGOF") sqlUpper then
    (false, cs "Invalid keyword 'BETWELOGOF' - use standard SQL")
  else if hasSub (cs "BETWEDIR") sqlUpper then
    (false, cs "Invalid keyword 'BETWEDIR' - use standard SQL")
  else if hasSub (cs "strftDirty") sqlUpper then
    (false, cs "Invalid keyword 'strftDirty' - use standard SQL")
  else if hasSub (cs "BETWEWS") sqlUpper then
    (false, cs "Invalid keyword 'BETWEWS' - use standard SQL")
  else if rsearch sumBetweenPat sql then
    (false, cs "Invalid: Cannot SUM a BETWEEN expression. Use BETWEEN in WHERE clause only")
  else (true, [])

/-- `NLToSQL.forward` (dspy_signatures.py, lines 88-130) on a model response
that carries an `sql_query` field with text `raw`: strip, remove code
fences, fix typos, and reject a result shorter than 5 characters.  The
generation call itself is external; a raised generation error is re-raised
and is not modelled here. -/
def nlToSqlForward (raw : Str) : Except Str Str :=
  let sql := pyStrip raw
  let sql := if pyStartsWith (cs "```sql") sql then pyStrip (pyReplace (cs "```sql") [] sql) else sql
  let sql := if pyStartsWith (cs "```") sql then pyStrip (pyReplace (cs "```") [] sql) else sql
  let sql := if pyEndsWith (cs "```") sql then pyStrip (sql.take (sql.length - 3)) else sql
  let sql := fixSqlTypos sql
  if sql.isEmpty || sql.length < 5 then
    .error (cs "SQL generation failed: Generated SQL is too short or empty")
  else .ok sql

/-! ## Table-name extraction (graph_hybrid.py, `_extract_table_names`,
lines 252-270)

`re.findall(r'FROM\s+["\']?(\w+)["\']?', sql, re.IGNORECASE)` (same for
`JOIN`): scan left to right; at a match of the keyword, require at least one
whitespace, an optional quote, a captured word run, an optional quote;
resume after the full match; on failure resume one character further. -/

def scanTables (kw : Str) (fuel : Nat) : Str → List Str
  | [] => []
  | s@(_ :: t) =>
    match fuel with
    | 0 => []
    | fuel + 1 =>
      if litPrefixAt kw true s then
        let rest := s.drop kw.length
        let restWS := rest.dropWhile isPyWS
        if restWS.length < rest.length then
          let afterQ := match restWS with
            | q :: t' => if q = '"' || q = '\'' then t' else restWS
            | [] => restWS
          let word := afterQ.takeWhile isWordChar
          if word.isEmpty then scanTables kw fuel t
          else
            let afterW := afterQ.drop word.length
            let afterW2 := match afterW with
              | q :: t' => if q = '"' || q = '\'' then t' else afterW
              | [] => afterW
            word :: scanTables kw fuel afterW2
        else scanTables kw fuel t
      else scanTables kw fuel t

/-- The fixed alias-to-table mapping (lines 259-268). -/
def normalizeTableName (t : Str) : Str :=
  if pyLower t = cs "orders" then cs "Orders"
  else if pyLower t = cs "order_items" then cs "Order Details"
  else if pyLower t = cs "products" then cs "Products"
  else if pyLower t = cs "customers" then cs "Customers"
  else t

def extractTableNames (sql : Str) : List Str :=
  ((scanTables (cs "FROM") sql.length sql) ++ (scanTables (cs "JOIN") sql.length sql)).map
    normalizeTableName

/-! ## Planner constraint extraction (graph_hybrid.py, `_planner_node`,
lines 143-174)

`', '.join(set(...))` iterates a Python set in unspecified order; the
embedding uses `List.dedup` (first occurrences, one definite order), which
the claims never depend on. -/

/-- Does an ISO-date-shaped window `\d{4}-\d{2}-\d{2}` start here? -/
def dateAt (s : Str) : Bool :=
  match s with
  | a :: b :: c :: d :: h1 :: e :: f :: h2 :: g :: h :: _ =>
    isDigitChar a && isDigitChar b && isDigitChar c && isDigitChar d && h1 = '-' &&
    isDigitChar e && isDigitChar f && h2 = '-' && isDigitChar g && isDigitChar h
  | _ => false

/-- `re.findall(r'(\d{4}-\d{2}-\d{2})', s)`: non-overlapping, left to right. -/
def findDates (fuel : Nat) : Str → List Str
  | [] => []
  | s@(_ :: t) =>
    match fuel with
    | 0 => []
    | fuel + 1 =>
      if dateAt s then (s.take 10) :: findDates fuel (s.drop 10)
      else findDates fuel t

/-- The closed category vocabulary of the planner's regex (line 164). -/
def categoryLits : List Str :=
  [ cs "Beverages", cs "Condiments", cs "Confections", cs "Dairy Products",
    cs "Grains/Cereals", cs "Meat/Poultry", cs "Produce", cs "Seafood" ]

/-- `re.findall` of the category alternation (case-sensitive): first
alternative matching at the leftmost position, non-overlapping. -/
def findCategories (fuel : Nat) : Str → List Str
  | [] => []
  | s@(_ :: t) =>
    match fuel with
    | 0 => []
    | fuel + 1 =>
      match categoryLits.find? (fun l => l.isPrefixOf s) with
      | some l => l :: findCategories fuel (s.drop l.length)
      | none => findCategories fuel t

/-- The context string `_planner_node` builds from the retrieved chunks. -/
def plannerContext (chunks : List Chunk) : Str :=
  let parts := chunks.map (fun c => cs "[" ++ c.chunkId ++ cs "]: " ++ c.content)
  let context := (parts.intersperse (cs "\n\n")).join
  let dates := findDates context.length context
  let info1 : List Str :=
    if dates ≠ [] then
      [cs "Dates found: " ++ ((dates.dedup.intersperse (cs ", ")).join)]
    else []
  let info2 : List Str :=
    if hasSub (cs "AOV") context || hasSub (cs "Average Order Value") context then
      [cs "KPI: AOV = SUM(UnitPrice*Qty*(1-Discount))/COUNT(DISTINCT OrderID)"]
    else []
  let info3 : List Str :=
    if hasSub (cs "Gross Margin") context || hasSub (cs "GM") context then
      [cs "KPI: Margin = Revenue - (0.7 * Revenue) when cost unknown"]
    else []
  let cats := findCategories context.length context
  let info4 : List Str :=
    if cats ≠ [] then
      [cs "Categories: " ++ ((cats.dedup.intersperse (cs ", ")).join)]
    else []
  let extracted := info1 ++ info2 ++ info3 ++ info4
  if extracted ≠ [] then
    ((extracted.intersperse (cs "\n")).join) ++ cs "\n\n" ++ context
  else context

/-! ## Repair hints (graph_hybrid.py, `_get_dynamic_repair_hints`,
lines 314-354) -/

/-- `re.search(r"no such column:\s*(\w+\.?\w*)", err)` on the lower-cased
error text: the captured column token, if any. -/
def findBadColumn (fuel : Nat) : Str → Option Str
  | [] => none
  | s@(_ :: t) =>
    match fuel with
    | 0 => none
    | fuel + 1 =>
      if litPrefixAt (cs "no such column:") false s then
        let rest := (s.drop 15).dropWhile isPyWS
        let w1 := rest.takeWhile isWordChar
        if w1.isEmpty then findBadColumn fuel t
        else
          let afterW1 := rest.drop w1.length
          match afterW1 with
          | '.' :: t' => some (w1 ++ cs "." ++ t'.takeWhile isWordChar)
          | _ => some w1
      else findBadColumn fuel t

def dynamicRepairHints (errorMsg : Option Str) (previousQuery : Str) : Str :=
  let errorLower := match errorMsg with
    | some e => if e ≠ [] then pyLower e else []
    | none => []
  let hints : List Str :=
    if hasSub (cs "no such column") errorLower then
      match findBadColumn errorLower.length errorLower with
      | some badCol =>
        let base := [cs "Column '" ++ badCol ++ cs "' not found."]
        if hasSub (cs "c.categoryname") (pyLower badCol) then
          base ++ [cs "FIX: Use 'cat.CategoryName' - alias 'cat' for Categories table.",
                   cs "JOIN Categories cat ON p.CategoryID = cat.CategoryID"]
        else if hasSub (cs "c.") (pyLower badCol) && hasSub (cs "category") (pyLower badCol) then
          base ++ [cs "FIX: Use 'cat' alias for Categories, 'c' for customers."]
        else if hasSub (cs "cats.") (pyLower badCol) then
          base ++ [cs "FIX: Use 'cat' not 'cats' as Categories alias."]
        else base
      | none => []
    else if hasSub (cs "syntax error") errorLower then
      [cs "SQL syntax error detected."]
      ++ (if hasSub (cs "BETWEEN") (pyUpper previousQuery) then
            [cs "Check BETWEEN syntax: column BETWEEN 'date1' AND 'date2'"]
          else [])
      ++ [cs "Ensure all parentheses are balanced.", cs "Use standard SQLite syntax only."]
    else if hasSub (cs "0 rows") errorLower || hasSub (cs "empty") errorLower then
      [cs "Query returned no results.",
       cs "Check date format: use '2017-MM-DD' (dates shifted +20 years)",
       cs "Check WHERE conditions are not too restrictive."]
    else []
  let hints :=
    if hints ≠ [] then
      hints ++ [cs "\nALIAS REMINDER: o=orders, od=order_items, p=products, cat=Categories, c=customers"]
    else
      [cs "Previous query failed. Check table names and aliases.",
       cs "ALIASES: o=orders, od=order_items, p=products, cat=Categories, c=customers"]
  (hints.intersperse (cs "\n")).join

/-! ## Synthesizer.forward (dspy_signatures.py, lines 237-331)

The LLM call may raise.  When the message looks like a JSON-parse failure
the code tries to salvage fields from it, but that path later evaluates
`result.citations` / `hasattr(result, ...)` with `result` unbound: the
`NameError` in the explanation loop (line 319) escapes, so `forward`
returns normally only when the LLM call itself succeeded; every failure
path ends in a raise, which `_synthesizer_node` catches. -/

/-- The fields of a successful LLM synthesizer response (an absent field
models a missing attribute on the prediction object). -/
structure SynthLLMOut where
  finalAnswer : Option Str
  explanation : Option Str
  citations : Option Str
deriving DecidableEq, Repr

structure SynthOut where
  finalAnswer : Option Str
  explanation : Str
  citations : List Str
deriving DecidableEq, Repr

/-- Python `str.split(sep)` for a one-character separator. -/
def pySplitOn (sep : Char) (s : Str) : List Str := s.splitOn sep

/-- Code-block cleanup of the final answer (lines 306-315). -/
def cleanFinalAnswer (fa : Option Str) : Option Str :=
  match fa with
  | none => none
  | some v =>
    let v := pyStrip v
    if v.isEmpty then none   -- `if final_answer_str:` guards the cleanup; an
                             -- empty string is falsy and `formatAnswerInt`
                             -- treats empty and None alike
    else if pyStartsWith (cs "```") v then
      let lines := pySplitOn '\n' v
      let kept := lines.filter (fun l => !pyStartsWith (cs "```") (pyStrip l))
      some (pyStrip ((kept.intersperse (cs "\n")).join))
    else some v

/-- The success path of `Synthesizer.forward` (lines 285-331): citations from
the orchestrator's table set and chunk list, extended with the parsed LLM
citations, then deduplicated by `list(set(...))` (modelled as `List.dedup`;
the set's iteration order is unspecified and no claim depends on it). -/
def synthesizerForwardOk (dbTablesUsed : List Str) (docChunks : List Chunk)
    (llm : SynthLLMOut) : SynthOut :=
  let citations := dbTablesUsed ++ docChunks.map Chunk.chunkId
  let citations :=
    match llm.citations with
    | some cstr =>
      let cstr := pyStrip cstr
      if cstr ≠ [] then citations ++ (pySplitOn ',' cstr).map pyStrip else citations
    | none => citations
  let citations := citations.dedup
  let explanation :=
    match llm.explanation with
    | some e => if pyStrip e ≠ [] then e else cs "Answer generated from SQL results and document context."
    | none => cs "Answer generated from SQL results and document context."
  { finalAnswer := cleanFinalAnswer llm.finalAnswer,
    explanation := explanation,
    citations := citations }

/-- Chunk identifiers built by `DocumentRetriever._chunk_document`
(retrieval.py, line 44): `f"{stem}::chunk{idx}"`. -/
def mkChunkId (stem : Str) (idx : Nat) : Str :=
  stem ++ cs "::chunk" ++ cs (toString idx)

/-! ## C10: the year-shift rewrite

`_fix_sql_typos` begins by replacing every occurrence of `'1996`, `'1997`,
`'1998` by `'2016`, `'2017`, `'2018`.  Right after that step no such
quoted-year prefix occurs (proved below for every input).  The claim's
further conclusion — that no query handed to the executor contains such a
prefix — fails: the later backtick-removal step (line 192) can splice an
apostrophe and a year back together. -/

lemma pyReplace_nil (p r : Str) : pyReplace p r [] = [] := rfl

lemma pyReplace_cons_pos (p r : Str) (c : Char) (t : Str)
    (h : p ≠ [] ∧ p.isPrefixOf (c :: t)) :
    pyReplace p r (c :: t) = r ++ pyReplace p r ((c :: t).drop p.length) := by
  unfold pyReplace
  simp only [List.length_cons, pyReplaceF, if_pos h]
  have hp : 0 < p.length := List.length_pos.mpr h.1
  rw [pyReplaceF_irrel p r t.length ((c :: t).drop p.length).length _
    (by simp only [List.length_drop, List.length_cons]; omega) (le_refl _)]

lemma pyReplace_cons_neg (p r : Str) (c : Char) (t : Str)
    (h : ¬(p ≠ [] ∧ p.isPrefixOf (c :: t))) :
    pyReplace p r (c :: t) = c :: pyReplace p r t := by
  unfold pyReplace
  simp only [List.length_cons, pyReplaceF, if_neg h]

/-- If every character of `pat` differs from the head of the replacement,
then replacing cannot create a new prefix occurrence of `pat`. -/
lemma pref_pres (p : Str) (rh : Char) (r' : Str) (pat : Str)
    (hpat : ∀ c ∈ pat, (c == rh) = false) :
    ∀ t, pat.isPrefixOf t = false → pat.isPrefixOf (pyReplace p (rh :: r') t) = false := by
  induction pat with
  | nil => intro t h; simp [List.isPrefixOf] at h
  | cons pc pat' ih =>
    intro t h
    cases t with
    | nil => simp [pyReplace_nil, List.isPrefixOf]
    | cons c t' =>
      by_cases hm : p ≠ [] ∧ p.isPrefixOf (c :: t')
      · rw [pyReplace_cons_pos p _ c t' hm]
        have hne : (pc == rh) = false := hpat pc (List.mem_cons_self _ _)
        simp [List.isPrefixOf, List.cons_append, hne]
      · rw [pyReplace_cons_neg p _ c t' hm]
        have hpat' : ∀ c ∈ pat', (c == rh) = false :=
          fun d hd => hpat d (List.mem_cons_of_mem _ hd)
        simp only [List.isPrefixOf, Bool.and_eq_false_iff] at h ⊢
        rcases h with h | h
        · exact Or.inl h
        · exact Or.inr (ih hpat' t' h)

lemma hasSub_drop (q : Str) (k : Nat) :
    ∀ s, hasSub q s = false → hasSub q (s.drop k) = false := by
  induction k with
  | zero => intro s h; simpa using h
  | succ k ih =>
    intro s h
    cases s with
    | nil => simpa using h
    | cons c t =>
      simp only [hasSub, Bool.or_eq_false_iff] at h
      exact ih t h.2

/-- Main lemma: after `pyReplace p (rh :: r')`, the pattern `qh :: q'` does
not occur, provided it did not occur before (or `p` is that very pattern),
no occurrence can span the boundary of an inserted replacement, and no
character of `q'` equals the replacement's head. -/
lemma hasSub_pyReplace_main (p : Str) (hp : p ≠ []) (qh : Char) (q' : Str)
    (rh : Char) (r' : Str)
    (hspan : ∀ x, hasSub (qh :: q') ((rh :: r') ++ x) = hasSub (qh :: q') x)
    (htail : ∀ c ∈ q', (c == rh) = false) :
    ∀ s, (hasSub (qh :: q') s = false ∨ p = qh :: q') →
      hasSub (qh :: q') (pyReplace p (rh :: r') s) = false := by
  suffices H : ∀ n s, s.length = n → (hasSub (qh :: q') s = false ∨ p = qh :: q') →
      hasSub (qh :: q') (pyReplace p (rh :: r') s) = false by
    intro s hcase
    exact H s.length s rfl hcase
  intro n
  induction n using Nat.strong_induction_on with
  | _ n ihn =>
    intro s hn hcase
    cases s with
    | nil =>
      simp [pyReplace_nil, hasSub, List.isPrefixOf]
    | cons c t =>
      by_cases hm : p ≠ [] ∧ p.isPrefixOf (c :: t)
      · rw [pyReplace_cons_pos p _ c t hm]
        rw [hspan]
        have hlen : ((c :: t).drop p.length).length < n := by
          subst hn
          have : 0 < p.length := List.length_pos.mpr hp
          simp only [List.length_drop, List.length_cons]
          omega
        refine ihn _ hlen _ rfl ?_
        rcases hcase with hc | hc
        · exact Or.inl (hasSub_drop _ _ _ hc)
        · exact Or.inr hc
      · rw [pyReplace_cons_neg p _ c t hm]
        have hlen : t.length < n := by subst hn; simp
        have hnopref : (qh :: q').isPrefixOf (c :: t) = false := by
          rcases hcase with hc | hc
          · simp only [hasSub, Bool.or_eq_false_iff] at hc
            exact hc.1
          · subst hc
            by_contra hb
            exact hm ⟨hp, Bool.not_eq_false _ ▸ (Bool.of_not_eq_false hb)⟩
        have htnext : hasSub (qh :: q') t = false ∨ p = qh :: q' := by
          rcases hcase with hc | hc
          · simp only [hasSub, Bool.or_eq_false_iff] at hc
            exact Or.inl hc.2
          · exact Or.inr hc
        have hrec := ihn _ hlen t rfl htnext
        simp only [hasSub, Bool.or_eq_false_iff]
        refine ⟨?_, hrec⟩
        simp only [List.isPrefixOf, Bool.and_eq_false_iff] at hnopref ⊢
        rcases hnopref with hx | hx
        · exact Or.inl hx
        · by_cases hqc : (qh == c) = true
          · exact Or.inr (pref_pres p rh r' q' htail t hx)
          · exact Or.inl (by simpa using hqc)

lemma hspan_96_16 : ∀ x, hasSub (cs "'1996") ((cs "'2016") ++ x) = hasSub (cs "'1996") x := by
  intro x; simp [cs, hasSub, List.isPrefixOf]

lemma hspan_96_17 : ∀ x, hasSub (cs "'1996") ((cs "'2017") ++ x) = hasSub (cs "'1996") x := by
  intro x; simp [cs, hasSub, List.isPrefixOf]

lemma hspan_96_18 : ∀ x, hasSub (cs "'1996") ((cs "'2018") ++ x) = hasSub (cs "'1996") x := by
  intro x; simp [cs, hasSub, List.isPrefixOf]

lemma hspan_97_17 : ∀ x, hasSub (cs "'1997") ((cs "'2017") ++ x) = hasSub (cs "'1997") x := by
  intro x; simp [cs, hasSub, List.isPrefixOf]

lemma hspan_97_18 : ∀ x, hasSub (cs "'1997") ((cs "'2018") ++ x) = hasSub (cs "'1997") x := by
  intro x; simp [cs, hasSub, List.isPrefixOf]

lemma hspan_98_18 : ∀ x, hasSub (cs "'1998") ((cs "'2018") ++ x) = hasSub (cs "'1998") x := by
  intro x; simp [cs, hasSub, List.isPrefixOf]

lemma noSub96 : ∀ s, hasSub (cs "'1996") (pyReplace (cs "'1996") (cs "'2016") s) = false :=
  fun s => hasSub_pyReplace_main (cs "'1996") (by decide) '\'' (cs "1996") '\'' (cs "2016")
    hspan_96_16 (by decide) s (Or.inr rfl)

lemma noSub97 : ∀ s, hasSub (cs "'1997") (pyReplace (cs "'1997") (cs "'2017") s) = false :=
  fun s => hasSub_pyReplace_main (cs "'1997") (by decide) '\'' (cs "1997") '\'' (cs "2017")
    hspan_97_17 (by decide) s (Or.inr rfl)

lemma noSub98 : ∀ s, hasSub (cs "'1998") (pyReplace (cs "'1998") (cs "'2018") s) = false :=
  fun s => hasSub_pyReplace_main (cs "'1998") (by decide) '\'' (cs "1998") '\'' (cs "2018")
    hspan_98_18 (by decide) s (Or.inr rfl)

lemma pres96_97 : ∀ s, hasSub (cs "'1996") s = false →
    hasSub (cs "'1996") (pyReplace (cs "'1997") (cs "'2017") s) = false :=
  fun s h => hasSub_pyReplace_main (cs "'1997") (by decide) '\'' (cs "1996") '\'' (cs "2017")
    hspan_96_17 (by decide) s (Or.inl h)

lemma pres96_98 : ∀ s, hasSub (cs "'1996") s = false →
    hasSub (cs "'1996") (pyReplace (cs "'1998") (cs "'2018") s) = false :=
  fun s h => hasSub_pyReplace_main (cs "'1998") (by decide) '\'' (cs "1996") '\'' (cs "2018")
    hspan_96_18 (by decide) s (Or.inl h)

lemma pres97_98 : ∀ s, hasSub (cs "'1997") s = false →
    hasSub (cs "'1997") (pyReplace (cs "'1998") (cs "'2018") s) = false :=
  fun s h => hasSub_pyReplace_main (cs "'1998") (by decide) '\'' (cs "1997") '\'' (cs "2018")
    hspan_97_18 (by decide) s (Or.inl h)

/-- C10, amended: every generated SQL string passes through the typo-fixing
rewrite, whose first step replaces every occurrence of `'1996`, `'1997`,
`'1998` by `'2016`, `'2017`, `'2018`; immediately after that step the string
contains no quoted year literal beginning with 1996, 1997 or 1998.  (The
original claim's conclusion about the query handed to the executor fails:
the later backtick-removal step can reintroduce such a literal, see the
counterexample.) -/
theorem C10_amended_year_shift_step (s : Str) :
    hasSub (cs "'1996") (fixYearTypos s) = false ∧
    hasSub (cs "'1997") (fixYearTypos s) = false ∧
    hasSub (cs "'1998") (fixYearTypos s) = false := by
  unfold fixYearTypos
  exact ⟨pres96_98 _ (pres96_97 _ (noSub96 s)),
         pres97_98 _ (noSub97 _),
         noSub98 _⟩

/-- C10, counterexample: a generated query containing a backtick between the
apostrophe and the year survives the year-shift step untouched, and the
later backtick removal splices `'1997` back together; the result passes
pre-flight validation and is handed to the executor containing a quoted
year literal beginning with 1997. -/
theorem C10_counterexample_backtick_reintroduces_year :
    nlToSqlForward (cs "SELECT a FROM t WHERE d = '`1997-01-01'") =
      .ok (cs "SELECT a FROM t WHERE d = '1997-01-01'") ∧
    hasSub (cs "'1997") (cs "SELECT a FROM t WHERE d = '1997-01-01'") = true ∧
    (validateSqlPreflight (cs "SELECT a FROM t WHERE d = '1997-01-01'")).1 = true := by
  refine ⟨?_, by decide, by decide⟩
  rfl

/-! ## Structural facts feeding the citation claim (C7)

Every table name `_extract_table_names` produces consists of word
characters or is one of the four fixed mapping targets, so it never
contains a colon; every chunk identifier the retriever builds contains
"::".  The two citation sources are therefore disjoint. -/

lemma colon_not_word : isWordChar ':' = false := by decide

lemma scanTables_no_colon (kw : Str) :
    ∀ fuel s, ∀ x ∈ scanTables kw fuel s, ':' ∉ x := by
  intro fuel
  induction fuel with
  | zero =>
    intro s x hx
    cases s <;> simp [scanTables] at hx
  | succ fuel ih =>
    intro s x hx
    cases s with
    | nil => simp [scanTables] at hx
    | cons c t =>
      unfold scanTables at hx
      dsimp only at hx
      split_ifs at hx with h1 h2 h3
      · exact ih t x hx
      · rcases List.mem_cons.mp hx with hw | hr
        · subst hw
          intro hcolon
          have := List.mem_takeWhile_imp hcolon
          rw [colon_not_word] at this
          exact Bool.noConfusion this
        · exact ih _ x hr
      · exact ih t x hx
      · exact ih t x hx

lemma normalizeTableName_no_colon (x : Str) (hx : ':' ∉ x) :
    ':' ∉ normalizeTableName x := by
  unfold normalizeTableName
  split_ifs <;> first | decide | exact hx

lemma extractTableNames_no_colon (sql : Str) :
    ∀ x ∈ extractTableNames sql, ':' ∉ x := by
  intro x hx
  unfold extractTableNames at hx
  rcases List.mem_map.mp hx with ⟨y, hy, hxy⟩
  subst hxy
  rcases List.mem_append.mp hy with h | h
  · exact normalizeTableName_no_colon y (scanTables_no_colon _ _ _ y h)
  · exact normalizeTableName_no_colon y (scanTables_no_colon _ _ _ y h)

lemma mkChunkId_colon (stem : Str) (idx : Nat) : ':' ∈ mkChunkId stem idx := by
  unfold mkChunkId
  refine List.mem_append.mpr (Or.inl (List.mem_append.mpr (Or.inr ?_)))
  decide

lemma synthesizerForwardOk_citations_nodup (db : List Str) (chunks : List Chunk)
    (llm : SynthLLMOut) : (synthesizerForwardOk db chunks llm).citations.Nodup := by
  unfold synthesizerForwardOk
  cases llm.citations <;> dsimp only <;> (try split_ifs) <;> exact List.nodup_dedup _

/- The heavy string-rewriting pipelines below are only ever evaluated on
concrete inputs; sealing them keeps the machine proofs from unfolding them
on symbolic inputs (the kernel is unaffected; theorems that evaluate them
open them up again with `unseal`). -/
seal fixSqlTypos
seal nlToSqlForward
seal validateSqlPreflight
seal plannerContext
seal dynamicRepairHints
seal extractTableNames
seal synthesizerForwardOk
seal calcConfidence
seal formatAnswerInt

/-! ## The orchestrator state machine (graph_hybrid.py, `_build_graph` and
the node functions)

Each LangGraph node is a state transformer; the outcome of each external
capability call (classifier, retriever, SQL generation model, SQLite
engine, synthesizer model) is an input of the transition step.  Everything
the node functions themselves compute is embedded.  One exception, stated
where it occurs: `_format_answer`'s `int` branch is embedded
(`formatAnswerInt`), and its other branches (float/list/record/text
coercion) are supplied as a transition input, since no claim settled on the
machine depends on the coerced value — only on `None`-ness and shape, which
`_validate_answer_format` checks on the modelled value. -/

inductive Node where
  | router
  | retriever
  | planner
  | nlSql
  | executor
  | synthesizer
  | repair
  | done
deriving DecidableEq, Repr

/-- The two labels `_route_after_executor` returns ("repair"/"synthesize"). -/
inductive RouteE where
  | toRepair
  | toSynth
deriving DecidableEq, Repr

/-- The two labels `_route_after_synthesizer` returns ("end"/"repair"). -/
inductive RouteS where
  | toEnd
  | toRepair
deriving DecidableEq, Repr

/-- The three labels `_route_after_repair` returns ("nl_sql"/"synthesizer"/"end"). -/
inductive RouteR where
  | toNlSql
  | toSynth
  | toEnd
deriving DecidableEq, Repr

/-- `_route_after_executor` (lines 272-287). -/
def routeAfterExecutor (s : AgentState) : RouteE :=
  if s.error ≠ none || !optSuccess s.sqlResults then
    if s.repairCount < 2 then .toRepair else .toSynth
  else if optRowCount s.sqlResults = 0 ∧ s.repairCount < 2 then .toRepair
  else .toSynth

/-- `_route_after_synthesizer` (lines 289-297). -/
def routeAfterSynthesizer (s : AgentState) : RouteS :=
  if !validateAnswerFormat s.finalAnswer s.formatHint ∧ s.repairCount < 2 then .toRepair
  else .toEnd

/-- `_route_after_repair` (lines 428-440).  `repair_type` is always set by
the repair node before this runs; a `None` value falls through to "end"
exactly as in Python (`state.get("repair_type", "sql")` returns the stored
`None`, which equals neither "sql" nor "output"). -/
def routeAfterRepair (s : AgentState) : RouteR :=
  if 2 ≤ s.repairCount then .toEnd
  else match s.repairType with
    | some .sql => .toNlSql
    | some .output => .toSynth
    | _ => .toEnd

/-- `_router_node` (lines 125-130) on a successful classification. -/
def routerNode (qt : QT) (s : AgentState) : AgentState :=
  { s with queryType := some qt }

/-- `_retriever_node` (lines 135-141); the retriever's ranked chunks are the
external input. -/
def retrieverNode (chunks : List Chunk) (s : AgentState) : AgentState :=
  { s with retrievedChunks := chunks }

/-- `_planner_node` (lines 143-174). -/
def plannerNode (s : AgentState) : AgentState :=
  { s with context := plannerContext s.retrievedChunks }

/-- `_nl_sql_node` (lines 207-228) on a generation result `sql` that
survived `NLToSQL.forward`: run pre-flight validation; on rejection record
the error and a failure result dict, on success record only the query. -/
def nlSqlApply (sql : Str) (s : AgentState) : AgentState :=
  let pf := validateSqlPreflight sql
  if pf.1 then { s with sqlQuery := sql }
  else
    { s with sqlQuery := sql, error := some pf.2,
             sqlResults := some { success := false, error := some pf.2,
                                  rows := [], rowCount := 0, columns := [] } }

/-- `_executor_node` (lines 230-250): skip when a pre-flight error is
recorded; otherwise execute, accumulate table names
(`list(set(old + new))`, modelled as `dedup` of the concatenation — the
set's iteration order is unspecified and no claim depends on it), and
record the error on failure. -/
def executorNode (outcome : Except Str (List Str × List Row)) (s : AgentState) : AgentState :=
  if s.error ≠ none then s
  else
    let res := executeQuery outcome
    let s := { s with sqlResults := some res,
                      dbTablesUsed := (s.dbTablesUsed ++ extractTableNames s.sqlQuery).dedup }
    if res.success then s else { s with error := res.error }

/-- The `int` branch of `_format_answer` is embedded; every other branch is
the transition input `oracle` (see the section comment). -/
def formatAnswerModel (oracle : Option AnsVal) (answer : Option Str) (hint : Str)
    (res : Option SqlRes) : Option AnsVal :=
  if hint = cs "int" then (formatAnswerInt answer res).map AnsVal.aInt
  else oracle

/-- `_synthesizer_node` (lines 442-491).  `outcome` is `none` when the
synthesizer call raised (the fallback path), `some (llm, fmt)` on success;
`fmt`/`fmtFail` model `_format_answer` on non-"int" hints. -/
def synthesizerNode (outcome : Option (SynthLLMOut × Option AnsVal))
    (fmtFail : Option AnsVal) (s : AgentState) : AgentState :=
  let s :=
    if s.queryType = some .rag ∧ s.sqlResults = none then
      { s with sqlResults := some { success := true, rows := [], rowCount := 0,
                                    columns := [], error := none } }
    else s
  let s2 :=
    match outcome with
    | some (llm, fmt) =>
      let out := synthesizerForwardOk s.dbTablesUsed s.retrievedChunks llm
      { s with finalAnswer := formatAnswerModel fmt out.finalAnswer s.formatHint s.sqlResults,
               explanation := out.explanation,
               citations := out.citations }
    | none =>
      { s with finalAnswer := formatAnswerModel fmtFail none s.formatHint s.sqlResults,
               explanation := cs "Direct extraction from SQL results.",
               citations := s.dbTablesUsed ++ s.retrievedChunks.map Chunk.chunkId }
  { s2 with confidence := calcConfidence s2 }

/-- `_repair_node` (lines 356-426).  `llm`/`fmt` are consumed only on the
output-repair branch (the un-guarded synthesizer call there; a raise is a
crash and has no transition). -/
def repairNode (llm : SynthLLMOut) (fmt : Option AnsVal) (s : AgentState) : AgentState :=
  let s := { s with repairCount := s.repairCount + 1 }
  let hasSqlError := s.error ≠ none || !optSuccess s.sqlResults
  let hasEmptyResults := optSuccess s.sqlResults && decide (optRowCount s.sqlResults = 0)
  let hasOutputIssue := s.finalAnswer ≠ none && !validateAnswerFormat s.finalAnswer s.formatHint
  if hasSqlError || hasEmptyResults then
    -- `state.get("error", ...)`: the key is always present, so the stored
    -- value (possibly None, printed "None") is used, not the default
    let errText := match s.error with | some e => e | none => cs "None"
    let hints := dynamicRepairHints s.error s.sqlQuery
    let repairContext :=
      cs "REPAIR NEEDED:\nError: " ++ errText ++ cs "\nFailed query: "
        ++ s.sqlQuery.take 200 ++ cs "...\n\nHINTS:\n" ++ hints
    let originalContext :=
      if 500 < s.context.length then s.context.take 500 ++ cs "..." else s.context
    { s with context := originalContext ++ cs "\n\n" ++ repairContext,
             error := none, finalAnswer := none, citations := [],
             repairType := some .sql }
  else if hasOutputIssue then
    let s := { s with context := s.context ++ cs "\n\n"
                 ++ cs "Previous answer had format issues. Format required: " ++ s.formatHint }
    let out := synthesizerForwardOk s.dbTablesUsed s.retrievedChunks llm
    { s with finalAnswer := formatAnswerModel fmt out.finalAnswer s.formatHint s.sqlResults,
             explanation := out.explanation,
             citations := out.citations,
             repairType := some .output }
  else { s with repairType := some .done }

/-- A transition input: the outcome of the external call the current node
makes (or `plan` for the purely internal planner node). -/
inductive Ev where
  | classify (qt : QT)
  | retrieve (chunks : List Chunk)
  | plan
  | generate (raw : Str)
  | execute (outcome : Except Str (List Str × List Row))
  | synthOk (llm : SynthLLMOut) (fmt : Option AnsVal)
  | synthFail (fmtFail : Option AnsVal)
  | repairStep (llm : SynthLLMOut) (fmt : Option AnsVal)

/-! One step of the compiled graph: run the current node on the event, then
follow the (conditional) edge (`_build_graph`, lines 69-116).  `none` when
the event does not fit the node, the node raises (failed SQL generation),
or the run is already terminal.  One dispatcher per node keeps the case
analysis small. -/

/-- The node each router label leads to (`_build_graph` line 85:
rag → retriever, sql → nl_sql, hybrid → retriever). -/
def targetAfterRouter : QT → Node
  | .rag => .retriever
  | .sql => .nlSql
  | .hybrid => .retriever

/-- The node each executor-routing label leads to (line 101). -/
def targetOfRouteE : RouteE → Node
  | .toRepair => .repair
  | .toSynth => .synthesizer

/-- The node each synthesizer-routing label leads to (line 113). -/
def targetOfRouteS : RouteS → Node
  | .toEnd => .done
  | .toRepair => .repair

/-- The node each repair-routing label leads to (line 107). -/
def targetOfRouteR : RouteR → Node
  | .toNlSql => .nlSql
  | .toSynth => .synthesizer
  | .toEnd => .done

def stepRouter : Ev → AgentState → Option (Node × AgentState)
  | .classify qt, s => some (targetAfterRouter qt, routerNode qt s)
  | _, _ => none

def stepRetriever : Ev → AgentState → Option (Node × AgentState)
  | .retrieve chunks, s => some (.planner, retrieverNode chunks s)
  | _, _ => none

def stepPlanner : Ev → AgentState → Option (Node × AgentState)
  | .plan, s =>
    let s := plannerNode s
    -- `_route_after_planner` (lines 176-179)
    some ((if s.queryType = some .rag then Node.synthesizer else Node.nlSql), s)
  | _, _ => none

def stepNlSql : Ev → AgentState → Option (Node × AgentState)
  | .generate raw, s =>
    (nlToSqlForward raw).toOption.map (fun sql => (Node.executor, nlSqlApply sql s))
  | _, _ => none

def stepExecutor : Ev → AgentState → Option (Node × AgentState)
  | .execute outcome, s =>
    let s := executorNode outcome s
    some (targetOfRouteE (routeAfterExecutor s), s)
  | _, _ => none

def stepSynthesizer : Ev → AgentState → Option (Node × AgentState)
  | .synthOk llm fmt, s =>
    let s := synthesizerNode (some (llm, fmt)) none s
    some (targetOfRouteS (routeAfterSynthesizer s), s)
  | .synthFail fmtFail, s =>
    let s := synthesizerNode none fmtFail s
    some (targetOfRouteS (routeAfterSynthesizer s), s)
  | _, _ => none

def stepRepair : Ev → AgentState → Option (Node × AgentState)
  | .repairStep llm fmt, s =>
    let s := repairNode llm fmt s
    some (targetOfRouteR (routeAfterRepair s), s)
  | _, _ => none

def stepFn : Node → Ev → AgentState → Option (Node × AgentState)
  | .router, ev, s => stepRouter ev s
  | .retriever, ev, s => stepRetriever ev s
  | .planner, ev, s => stepPlanner ev s
  | .nlSql, ev, s => stepNlSql ev s
  | .executor, ev, s => stepExecutor ev s
  | .synthesizer, ev, s => stepSynthesizer ev s
  | .repair, ev, s => stepRepair ev s
  | .done, _, _ => none

/-- One machine step with some external outcome. -/
def MStep (a b : Node × AgentState) : Prop :=
  ∃ ev, stepFn a.1 ev a.2 = some b

/-- Reachability from the per-request initial state at the entry node. -/
def Reach (question questionId formatHint : Str) (ns : Node × AgentState) : Prop :=
  Relation.ReflTransGen MStep (.router, initState question questionId formatHint) ns

/-- Run a list of external outcomes from a configuration. -/
def runSteps : List Ev → (Node × AgentState) → Option (Node × AgentState)
  | [], ns => some ns
  | ev :: evs, ns =>
    match stepFn ns.1 ev ns.2 with
    | some ns' => runSteps evs ns'
    | none => none

/-- The successive nodes a run visits (after each event). -/
def runNodes : List Ev → (Node × AgentState) → Option (List Node)
  | [], _ => some []
  | ev :: evs, ns =>
    match stepFn ns.1 ev ns.2 with
    | some ns' => (runNodes evs ns').map (fun l => ns'.1 :: l)
    | none => none

/-! ## Invariants of the machine: the repair counter and the table set -/

lemma routeAfterExecutor_toRepair (s : AgentState)
    (h : routeAfterExecutor s = .toRepair) : s.repairCount < 2 := by
  unfold routeAfterExecutor at h
  split_ifs at h <;> simp_all

lemma routeAfterSynthesizer_toRepair (s : AgentState)
    (h : routeAfterSynthesizer s = .toRepair) : s.repairCount < 2 := by
  unfold routeAfterSynthesizer at h
  split_ifs at h <;> simp_all

lemma routerNode_repairCount (qt : QT) (s : AgentState) :
    (routerNode qt s).repairCount = s.repairCount := rfl

lemma nlSqlApply_repairCount (sql : Str) (s : AgentState) :
    (nlSqlApply sql s).repairCount = s.repairCount := by
  unfold nlSqlApply
  dsimp only
  split <;> rfl

lemma executorNode_repairCount (o : Except Str (List Str × List Row)) (s : AgentState) :
    (executorNode o s).repairCount = s.repairCount := by
  unfold executorNode
  dsimp only
  split_ifs <;> rfl

lemma synthesizerNode_repairCount (outcome : Option (SynthLLMOut × Option AnsVal))
    (fmtFail : Option AnsVal) (s : AgentState) :
    (synthesizerNode outcome fmtFail s).repairCount = s.repairCount := by
  unfold synthesizerNode
  cases outcome with
  | none => dsimp only; split_ifs <;> rfl
  | some p => obtain ⟨llm, fmt⟩ := p; dsimp only; split_ifs <;> rfl

lemma repairNode_repairCount (llm : SynthLLMOut) (fmt : Option AnsVal) (s : AgentState) :
    (repairNode llm fmt s).repairCount = s.repairCount + 1 := by
  unfold repairNode
  dsimp only
  split_ifs <;> rfl

lemma targetAfterRouter_ne_repair (qt : QT) : targetAfterRouter qt ≠ .repair := by
  cases qt <;> simp [targetAfterRouter]

lemma targetOfRouteE_repair (r : RouteE) (h : targetOfRouteE r = .repair) : r = .toRepair := by
  cases r <;> simp_all [targetOfRouteE]

lemma targetOfRouteS_repair (r : RouteS) (h : targetOfRouteS r = .repair) : r = .toRepair := by
  cases r <;> simp_all [targetOfRouteS]

lemma targetOfRouteR_ne_repair (r : RouteR) : targetOfRouteR r ≠ .repair := by
  cases r <;> simp [targetOfRouteR]

/-- How one step changes the repair counter: unchanged off the repair node,
incremented by exactly one on it; and any step entering the repair node
leaves a counter value strictly below 2. -/
lemma stepFn_repairCount (n : Node) (ev : Ev) (s : AgentState) (n' : Node) (s' : AgentState)
    (h : stepFn n ev s = some (n', s')) :
    (n ≠ .repair → s'.repairCount = s.repairCount) ∧
    (n = .repair → s'.repairCount = s.repairCount + 1) ∧
    (n' = .repair → s'.repairCount < 2) := by
  cases n <;> cases ev <;>
    simp only [stepFn, stepRouter, stepRetriever, stepPlanner, stepNlSql,
      stepExecutor, stepSynthesizer, stepRepair, Option.map_eq_some',
      Option.some.injEq, Prod.mk.injEq, reduceCtorEq] at h
  case router.classify qt =>
    obtain ⟨hn, hs⟩ := h
    subst hn; subst hs
    exact ⟨fun _ => rfl, by simp, fun hrep => absurd hrep (targetAfterRouter_ne_repair qt)⟩
  case retriever.retrieve chunks =>
    obtain ⟨hn, hs⟩ := h
    subst hn; subst hs
    exact ⟨fun _ => rfl, by simp, by simp⟩
  case planner.plan =>
    obtain ⟨hn, hs⟩ := h
    subst hn; subst hs
    refine ⟨fun _ => rfl, by simp, fun hrep => ?_⟩
    split at hrep <;> exact absurd hrep (by simp)
  case nlSql.generate raw =>
    obtain ⟨sql, hsql, hn, hs⟩ := h
    subst hn; subst hs
    exact ⟨fun _ => nlSqlApply_repairCount sql s, by simp, by simp⟩
  case executor.execute o =>
    obtain ⟨hn, hs⟩ := h
    subst hn; subst hs
    refine ⟨fun _ => executorNode_repairCount o s, by simp, fun hrep => ?_⟩
    have hr := targetOfRouteE_repair _ hrep
    exact routeAfterExecutor_toRepair _ hr
  case synthesizer.synthOk llm fmt =>
    obtain ⟨hn, hs⟩ := h
    subst hn; subst hs
    refine ⟨fun _ => synthesizerNode_repairCount _ _ s, by simp, fun hrep => ?_⟩
    have hr := targetOfRouteS_repair _ hrep
    exact routeAfterSynthesizer_toRepair _ hr
  case synthesizer.synthFail fmtFail =>
    obtain ⟨hn, hs⟩ := h
    subst hn; subst hs
    refine ⟨fun _ => synthesizerNode_repairCount _ _ s, by simp, fun hrep => ?_⟩
    have hr := targetOfRouteS_repair _ hrep
    exact routeAfterSynthesizer_toRepair _ hr
  case repair.repairStep llm fmt =>
    obtain ⟨hn, hs⟩ := h
    subst hn; subst hs
    exact ⟨fun hne => absurd rfl hne, fun _ => repairNode_repairCount llm fmt s,
           fun hrep => absurd hrep (targetOfRouteR_ne_repair _)⟩

/-- The reachability invariant behind C1. -/
lemma reach_repairCount_inv (q i hnt : Str) (ns : Node × AgentState)
    (hr : Reach q i hnt ns) :
    ns.2.repairCount ≤ 2 ∧ (ns.1 = .repair → ns.2.repairCount ≤ 1) := by
  induction hr with
  | refl => exact ⟨by simp [initState], fun h => by simp [initState]⟩
  | @tail b c _ hstep ih =>
    obtain ⟨ev, hev⟩ := hstep
    obtain ⟨n', s'⟩ := c
    have h3 := stepFn_repairCount b.1 ev b.2 n' s' hev
    dsimp only
    constructor
    · by_cases hb : b.1 = .repair
      · rw [h3.2.1 hb]
        have := ih.2 hb
        omega
      · rw [h3.1 hb]; exact ih.1
    · intro hrep
      have := h3.2.2 hrep
      omega

/-- C1: for every request, the repair counter starts at 0, is incremented
(by exactly one) only on entry to the repair node, never exceeds 2 in any
reachable configuration, and once it has reached 2 the routing decision
after repair is the terminal state — `_route_after_repair` checks the
counter first, regardless of the error state. -/
theorem C1_repair_counter_bounded :
    (∀ q i h, (initState q i h).repairCount = 0) ∧
    (∀ q i h ns, Reach q i h ns → ns.2.repairCount ≤ 2) ∧
    (∀ n ev s n' s', stepFn n ev s = some (n', s') → n ≠ .repair →
      s'.repairCount = s.repairCount) ∧
    (∀ ev s n' s', stepFn .repair ev s = some (n', s') →
      s'.repairCount = s.repairCount + 1) ∧
    (∀ s, 2 ≤ s.repairCount → routeAfterRepair s = .toEnd) := by
  refine ⟨fun q i h => rfl,
          fun q i h ns hr => (reach_repairCount_inv q i h ns hr).1,
          fun n ev s n' s' h hne => (stepFn_repairCount n ev s n' s' h).1 hne,
          fun ev s n' s' h => (stepFn_repairCount .repair ev s n' s' h).2.1 rfl,
          fun s h2 => ?_⟩
  unfold routeAfterRepair
  rw [if_pos h2]

/-- Witness for C1 at a concrete request and a concrete counter-2 state. -/
theorem C1_repair_counter_bounded_witness :
    (initState (cs "how many orders") (cs "q1") (cs "int")).repairCount ≤ 2 ∧
    routeAfterRepair
      { initState (cs "how many orders") (cs "q1") (cs "int") with repairCount := 2 }
      = .toEnd :=
  ⟨C1_repair_counter_bounded.2.1 (cs "how many orders") (cs "q1") (cs "int")
      (.router, initState (cs "how many orders") (cs "q1") (cs "int"))
      Relation.ReflTransGen.refl,
   C1_repair_counter_bounded.2.2.2.2 _ (by decide)⟩

/-- The query-repair branch of `_repair_node` is taken exactly under the
failure condition of the routing decision, and tags the repair "sql". -/
lemma repairNode_repairType_sql (llm : SynthLLMOut) (fmt : Option AnsVal) (s : AgentState)
    (hcond : s.error ≠ none ∨ optSuccess s.sqlResults = false ∨ optRowCount s.sqlResults = 0) :
    (repairNode llm fmt s).repairType = some RTag.sql := by
  unfold repairNode
  dsimp only
  rw [if_pos ?hc]
  case hc =>
    rcases hcond with h | h | h
    · simp [h]
    · simp [h]
    · by_cases hs : optSuccess s.sqlResults
      · simp [hs, h]
      · simp [hs]

/-- C4: the routing decision after execution returns Repairing exactly when
(an error is recorded, or execution did not succeed, or zero rows came
back) and the repair counter is strictly below 2 — otherwise Synthesizing —
and in the Repairing case the repair node chooses repair-kind "sql"
(query-repair). -/
theorem C4_route_after_executor :
    (∀ s : AgentState,
      routeAfterExecutor s = .toRepair ↔
        ((s.error ≠ none ∨ optSuccess s.sqlResults = false ∨ optRowCount s.sqlResults = 0)
          ∧ s.repairCount < 2)) ∧
    (∀ s llm fmt,
      (s.error ≠ none ∨ optSuccess s.sqlResults = false ∨ optRowCount s.sqlResults = 0) →
      (repairNode llm fmt s).repairType = some RTag.sql) := by
  refine ⟨fun s => ?_, fun s llm fmt h => repairNode_repairType_sql llm fmt s h⟩
  unfold routeAfterExecutor
  split_ifs with h1 h2 h3
  · simp only [Bool.or_eq_true, decide_eq_true_eq, Bool.not_eq_true'] at h1
    constructor
    · intro _
      refine ⟨?_, h2⟩
      rcases h1 with h | h
      · exact Or.inl h
      · exact Or.inr (Or.inl h)
    · intro _; rfl
  · simp only [Bool.or_eq_true, decide_eq_true_eq, Bool.not_eq_true'] at h1
    constructor
    · intro hx; exact absurd hx (by simp)
    · intro ⟨_, hrc⟩; exact absurd hrc h2
  · constructor
    · intro _; exact ⟨Or.inr (Or.inr h3.1), h3.2⟩
    · intro _; rfl
  · simp only [Bool.or_eq_true, decide_eq_true_eq, Bool.not_eq_true', not_or] at h1
    constructor
    · intro hx; exact absurd hx (by simp)
    · intro ⟨hd, hrc⟩
      rcases hd with h | h | h
      · exact absurd h h1.1
      · exact absurd h h1.2
      · exact h3 ⟨h, hrc⟩

/-- Witness for C4 at a concrete failed-execution state. -/
theorem C4_route_after_executor_witness :
    routeAfterExecutor
      { initState (cs "q") (cs "q2") (cs "int") with
          error := some (cs "no such column: c.CategoryName"),
          sqlResults := some { success := false, columns := [], rows := [],
                               rowCount := 0, error := some (cs "no such column: c.CategoryName") } }
      = .toRepair ∧
    (repairNode { finalAnswer := none, explanation := none, citations := none } none
      { initState (cs "q") (cs "q2") (cs "int") with
          error := some (cs "no such column: c.CategoryName"),
          sqlResults := some { success := false, columns := [], rows := [],
                               rowCount := 0, error := some (cs "no such column: c.CategoryName") } }).repairType
      = some RTag.sql :=
  ⟨(C4_route_after_executor.1 _).mpr ⟨Or.inl (by decide), by decide⟩,
   C4_route_after_executor.2 _ _ _ (Or.inl (by decide))⟩

/-! ## C8: the table-name set only grows -/

lemma executorNode_tables_mem (o : Except Str (List Str × List Row)) (s : AgentState) :
    ∀ x ∈ s.dbTablesUsed, x ∈ (executorNode o s).dbTablesUsed := by
  unfold executorNode
  dsimp only
  split_ifs <;> intro x hx <;>
    first
      | exact hx
      | exact List.mem_dedup.mpr (List.mem_append_left _ hx)

lemma nlSqlApply_tables (sql : Str) (s : AgentState) :
    (nlSqlApply sql s).dbTablesUsed = s.dbTablesUsed := by
  unfold nlSqlApply
  dsimp only
  split <;> rfl

lemma synthesizerNode_tables (outcome : Option (SynthLLMOut × Option AnsVal))
    (fmtFail : Option AnsVal) (s : AgentState) :
    (synthesizerNode outcome fmtFail s).dbTablesUsed = s.dbTablesUsed := by
  unfold synthesizerNode
  cases outcome with
  | none => dsimp only; split_ifs <;> rfl
  | some p => obtain ⟨llm, fmt⟩ := p; dsimp only; split_ifs <;> rfl

lemma repairNode_tables (llm : SynthLLMOut) (fmt : Option AnsVal) (s : AgentState) :
    (repairNode llm fmt s).dbTablesUsed = s.dbTablesUsed := by
  unfold repairNode
  dsimp only
  split_ifs <;> rfl

/-- No step of the machine removes a table name from the accumulated set. -/
lemma stepFn_tables (n : Node) (ev : Ev) (s : AgentState) (n' : Node) (s' : AgentState)
    (h : stepFn n ev s = some (n', s')) :
    ∀ x ∈ s.dbTablesUsed, x ∈ s'.dbTablesUsed := by
  cases n <;> cases ev <;>
    simp only [stepFn, stepRouter, stepRetriever, stepPlanner, stepNlSql,
      stepExecutor, stepSynthesizer, stepRepair, Option.map_eq_some',
      Option.some.injEq, Prod.mk.injEq, reduceCtorEq] at h
  case router.classify qt =>
    obtain ⟨hn, hs⟩ := h; subst hs; intro x hx; exact hx
  case retriever.retrieve chunks =>
    obtain ⟨hn, hs⟩ := h; subst hs; intro x hx; exact hx
  case planner.plan =>
    obtain ⟨hn, hs⟩ := h; subst hs; intro x hx; exact hx
  case nlSql.generate raw =>
    obtain ⟨sql, hsql, hn, hs⟩ := h; subst hs
    intro x hx
    rw [nlSqlApply_tables]
    exact hx
  case executor.execute o =>
    obtain ⟨hn, hs⟩ := h; subst hs
    exact executorNode_tables_mem o s
  case synthesizer.synthOk llm fmt =>
    obtain ⟨hn, hs⟩ := h; subst hs
    intro x hx; rw [synthesizerNode_tables]; exact hx
  case synthesizer.synthFail fmtFail =>
    obtain ⟨hn, hs⟩ := h; subst hs
    intro x hx; rw [synthesizerNode_tables]; exact hx
  case repair.repairStep llm fmt =>
    obtain ⟨hn, hs⟩ := h; subst hs
    intro x hx; rw [repairNode_tables]; exact hx

/-- C8: within a request the referenced-table set is monotonically
non-decreasing: (i) no step removes an entry; (ii) a (non-skipped)
execution unions the names extracted from the current query into the set;
(iii) the query-repair branch clears the error, the answer and the
citations, increments the counter, and leaves the table set untouched. -/
theorem C8_table_set_monotone :
    (∀ n ev s n' s', stepFn n ev s = some (n', s') →
      ∀ x ∈ s.dbTablesUsed, x ∈ s'.dbTablesUsed) ∧
    (∀ o s, s.error = none →
      ∀ x, x ∈ (executorNode o s).dbTablesUsed ↔
        (x ∈ s.dbTablesUsed ∨ x ∈ extractTableNames s.sqlQuery)) ∧
    (∀ llm fmt s,
      (s.error ≠ none ∨ optSuccess s.sqlResults = false ∨ optRowCount s.sqlResults = 0) →
      (repairNode llm fmt s).dbTablesUsed = s.dbTablesUsed ∧
      (repairNode llm fmt s).error = none ∧
      (repairNode llm fmt s).finalAnswer = none ∧
      (repairNode llm fmt s).citations = [] ∧
      (repairNode llm fmt s).repairCount = s.repairCount + 1) := by
  refine ⟨stepFn_tables, fun o s herr x => ?_, fun llm fmt s hcond => ?_⟩
  · unfold executorNode
    rw [if_neg (by simp [herr])]
    dsimp only
    have hbase :
        x ∈ ((s.dbTablesUsed ++ extractTableNames s.sqlQuery).dedup) ↔
          (x ∈ s.dbTablesUsed ∨ x ∈ extractTableNames s.sqlQuery) := by
      rw [List.mem_dedup, List.mem_append]
    split_ifs <;> exact hbase
  · have hcase :
        (decide (s.error ≠ none)
          || !optSuccess { s with repairCount := s.repairCount + 1 }.sqlResults
          || (optSuccess { s with repairCount := s.repairCount + 1 }.sqlResults
              && decide (optRowCount { s with repairCount := s.repairCount + 1 }.sqlResults = 0)))
          = true := by
      rcases hcond with h | h | h
      · simp [h]
      · simp [h]
      · by_cases hs : optSuccess s.sqlResults
        · simp [hs, h]
        · simp [hs]
    unfold repairNode
    dsimp only
    rw [if_pos hcase]
    exact ⟨rfl, rfl, rfl, rfl, rfl⟩

-- Witness for C8 at a concrete execution and repair.
unseal extractTableNames in
theorem C8_table_set_monotone_witness :
    ((cs "Orders") ∈
      (executorNode (.ok ([cs "n"], [[(cs "n", PyVal.num 5)]]))
        { initState (cs "q") (cs "q3") (cs "int") with
            sqlQuery := cs "SELECT COUNT(*) AS n FROM orders" }).dbTablesUsed) ∧
    (repairNode { finalAnswer := none, explanation := none, citations := none } none
      { initState (cs "q") (cs "q3") (cs "int") with
          error := some (cs "syntax error"), dbTablesUsed := [cs "Orders"] }).dbTablesUsed
      = [cs "Orders"] := by
  constructor
  · exact (C8_table_set_monotone.2.1 (.ok ([cs "n"], [[(cs "n", PyVal.num 5)]]))
      { initState (cs "q") (cs "q3") (cs "int") with
          sqlQuery := cs "SELECT COUNT(*) AS n FROM orders" } (by decide) (cs "Orders")).mpr
      (Or.inr (by decide))
  · exact (C8_table_set_monotone.2.2
      { finalAnswer := none, explanation := none, citations := none } none
      { initState (cs "q") (cs "q3") (cs "int") with
          error := some (cs "syntax error"), dbTablesUsed := [cs "Orders"] }
      (Or.inl (by decide))).1

/-! ## C7: citations carry no duplicates -/

lemma executorNode_tables_eq (o : Except Str (List Str × List Row)) (s : AgentState) :
    (executorNode o s).dbTablesUsed = s.dbTablesUsed ∨
    (executorNode o s).dbTablesUsed = (s.dbTablesUsed ++ extractTableNames s.sqlQuery).dedup := by
  unfold executorNode
  dsimp only
  split_ifs
  · exact Or.inl rfl
  · exact Or.inr rfl
  · exact Or.inr rfl

/-- The accumulated table set stays duplicate-free and colon-free across
every step. -/
lemma stepFn_tables_wf (n : Node) (ev : Ev) (s : AgentState) (n' : Node) (s' : AgentState)
    (h : stepFn n ev s = some (n', s'))
    (hw : s.dbTablesUsed.Nodup ∧ ∀ x ∈ s.dbTablesUsed, ':' ∉ x) :
    s'.dbTablesUsed.Nodup ∧ ∀ x ∈ s'.dbTablesUsed, ':' ∉ x := by
  cases n <;> cases ev <;>
    simp only [stepFn, stepRouter, stepRetriever, stepPlanner, stepNlSql,
      stepExecutor, stepSynthesizer, stepRepair, Option.map_eq_some',
      Option.some.injEq, Prod.mk.injEq, reduceCtorEq] at h
  case router.classify qt =>
    obtain ⟨hn, hs⟩ := h; subst hs; exact hw
  case retriever.retrieve chunks =>
    obtain ⟨hn, hs⟩ := h; subst hs; exact hw
  case planner.plan =>
    obtain ⟨hn, hs⟩ := h; subst hs; exact hw
  case nlSql.generate raw =>
    obtain ⟨sql, hsql, hn, hs⟩ := h; subst hs
    rw [nlSqlApply_tables]; exact hw
  case executor.execute o =>
    obtain ⟨hn, hs⟩ := h; subst hs
    rcases executorNode_tables_eq o s with he | he <;> rw [he]
    · exact hw
    · refine ⟨List.nodup_dedup _, fun x hx => ?_⟩
      rcases List.mem_append.mp (List.mem_dedup.mp hx) with hx' | hx'
      · exact hw.2 x hx'
      · exact extractTableNames_no_colon _ x hx'
  case synthesizer.synthOk llm fmt =>
    obtain ⟨hn, hs⟩ := h; subst hs
    rw [synthesizerNode_tables]; exact hw
  case synthesizer.synthFail fmtFail =>
    obtain ⟨hn, hs⟩ := h; subst hs
    rw [synthesizerNode_tables]; exact hw
  case repair.repairStep llm fmt =>
    obtain ⟨hn, hs⟩ := h; subst hs
    rw [repairNode_tables]; exact hw

lemma reach_tables_wf (q i hnt : Str) (ns : Node × AgentState) (hr : Reach q i hnt ns) :
    ns.2.dbTablesUsed.Nodup ∧ ∀ x ∈ ns.2.dbTablesUsed, ':' ∉ x := by
  induction hr with
  | refl => exact ⟨List.nodup_nil, by simp [initState]⟩
  | @tail b c _ hstep ih =>
    obtain ⟨ev, hev⟩ := hstep
    obtain ⟨n', s'⟩ := c
    exact stepFn_tables_wf b.1 ev b.2 n' s' hev ih

/-- The citation list each synthesizer path writes. -/
lemma synthesizerNode_citations (outcome : Option (SynthLLMOut × Option AnsVal))
    (fmtFail : Option AnsVal) (s : AgentState) :
    (synthesizerNode outcome fmtFail s).citations =
      match outcome with
      | some (llm, _) => (synthesizerForwardOk s.dbTablesUsed s.retrievedChunks llm).citations
      | none => s.dbTablesUsed ++ s.retrievedChunks.map Chunk.chunkId := by
  unfold synthesizerNode
  cases outcome with
  | none => dsimp only; split_ifs <;> rfl
  | some p => obtain ⟨llm, fmt⟩ := p; dsimp only; split_ifs <;> rfl

/-- C7: the citations list contains no duplicates on both synthesis paths.
On the normal path `Synthesizer.forward` deduplicates with `list(set(...))`,
unconditionally.  On the synthesizer-failure fallback path the list is the
accumulated table set followed by the chunk identifiers: the table set is
duplicate-free and colon-free in every reachable state (`reach_tables_wf`),
while the retriever's chunk identifiers are pairwise distinct and contain
"::" (`_chunk_document` builds `f"{stem}::chunk{idx}"` with per-file
increasing indices over distinct file stems, `mkChunkId_colon`), so the two
parts are disjoint and the concatenation has no duplicates. -/
theorem C7_citations_deduplicated :
    (∀ llm fmt fmtFail s,
      (synthesizerNode (some (llm, fmt)) fmtFail s).citations.Nodup) ∧
    (∀ q i hnt ns, Reach q i hnt ns →
      (ns.2.retrievedChunks.map Chunk.chunkId).Nodup →
      (∀ c ∈ ns.2.retrievedChunks, ':' ∈ c.chunkId) →
      ∀ fmtFail, (synthesizerNode none fmtFail ns.2).citations.Nodup) := by
  constructor
  · intro llm fmt fmtFail s
    rw [synthesizerNode_citations]
    exact synthesizerForwardOk_citations_nodup _ _ llm
  · intro q i hnt ns hr hnodup hcolon fmtFail
    rw [synthesizerNode_citations]
    have hw := reach_tables_wf q i hnt ns hr
    refine List.Nodup.append hw.1 hnodup ?_
    intro x hxdb hxch
    rcases List.mem_map.mp hxch with ⟨c, hc, hcx⟩
    exact hw.2 x hxdb (hcx ▸ hcolon c hc)

/-- Witness for C7 at a concrete success state and the initial reachable
state. -/
theorem C7_citations_deduplicated_witness :
    (synthesizerNode
      (some ({ finalAnswer := some (cs "42"), explanation := some (cs "count"),
               citations := some (cs "Orders, Orders") }, none)) none
      { initState (cs "q") (cs "q4") (cs "int") with dbTablesUsed := [cs "Orders"] }).citations.Nodup ∧
    (synthesizerNode none none
      (initState (cs "q") (cs "q4") (cs "int"))).citations.Nodup :=
  ⟨C7_citations_deduplicated.1 _ none none _,
   C7_citations_deduplicated.2 (cs "q") (cs "q4") (cs "int")
     (.router, initState (cs "q") (cs "q4") (cs "int")) Relation.ReflTransGen.refl
     (by decide) (by decide) none⟩

/-! ## C3: persistent execution failure ends after two attempts -/

lemma nlSqlApply_fields (sql : Str) (s : AgentState) :
    (nlSqlApply sql s).repairCount = s.repairCount ∧
    (nlSqlApply sql s).confidence = s.confidence ∧
    (nlSqlApply sql s).finalAnswer = s.finalAnswer ∧
    (nlSqlApply sql s).queryType = s.queryType := by
  unfold nlSqlApply
  dsimp only
  split <;> exact ⟨rfl, rfl, rfl, rfl⟩

lemma stepNlSql_ok (raw sql : Str) (s : AgentState) (h : nlToSqlForward raw = .ok sql) :
    stepFn .nlSql (.generate raw) s = some (.executor, nlSqlApply sql s) := by
  simp [stepFn, stepNlSql, h, Except.toOption]

/-- A failing execution (with repair budget left) always routes to the
repair node, carrying a recorded error and leaving counter, confidence and
answer untouched — whether the executor ran (and failed) or was skipped
because of a pre-flight error. -/
lemma stepExecutor_fail (e : Str) (s : AgentState) (hrc : s.repairCount < 2) :
    ∃ s', stepFn .executor (.execute (.error e)) s = some (.repair, s') ∧
      s'.error ≠ none ∧ s'.repairCount = s.repairCount ∧
      s'.confidence = s.confidence ∧ s'.finalAnswer = s.finalAnswer := by
  refine ⟨executorNode (.error e) s, ?_, ?_⟩
  all_goals by_cases herr : s.error = none
  case _ =>
    -- ran and failed
    have hfields : (executorNode (.error e) s).error = some e := by
      unfold executorNode
      rw [if_neg (by simp [herr])]
      dsimp only
      rw [if_neg (by simp [executeQuery])]
      simp [executeQuery]
    have hroute : routeAfterExecutor (executorNode (.error e) s) = .toRepair := by
      unfold routeAfterExecutor
      rw [if_pos (by simp [hfields])]
      rw [if_pos ?hrc]
      case hrc => rw [executorNode_repairCount]; exact hrc
    simp only [stepFn, stepExecutor, hroute, targetOfRouteE]
  case _ =>
    -- skipped because of a recorded pre-flight error
    have hskip : executorNode (.error e) s = s := by
      unfold executorNode
      rw [if_pos herr]
    have hroute : routeAfterExecutor (executorNode (.error e) s) = .toRepair := by
      rw [hskip]
      unfold routeAfterExecutor
      rw [if_pos (by simp [herr]), if_pos hrc]
    simp only [stepFn, stepExecutor, hroute, targetOfRouteE]
  case _ =>
    refine ⟨?_, executorNode_repairCount _ s, ?_, ?_⟩
    · unfold executorNode
      rw [if_neg (by simp [herr])]
      dsimp only
      rw [if_neg (by simp [executeQuery])]
      simp [executeQuery]
    all_goals
      unfold executorNode
      rw [if_neg (by simp [herr])]
      dsimp only
      rw [if_neg (by simp [executeQuery])]
  case _ =>
    have hskip : executorNode (.error e) s = s := by
      unfold executorNode
      rw [if_pos herr]
    rw [hskip]
    exact ⟨herr, rfl, rfl, rfl⟩

lemma repairNode_sql_fields (llm : SynthLLMOut) (f : Option AnsVal) (s : AgentState)
    (herr : s.error ≠ none) :
    (repairNode llm f s).repairCount = s.repairCount + 1 ∧
    (repairNode llm f s).error = none ∧
    (repairNode llm f s).finalAnswer = none ∧
    (repairNode llm f s).confidence = s.confidence ∧
    (repairNode llm f s).repairType = some .sql := by
  unfold repairNode
  dsimp only
  rw [if_pos (by simp [herr])]
  exact ⟨rfl, rfl, rfl, rfl, rfl⟩

lemma stepRepair_eq (llm : SynthLLMOut) (f : Option AnsVal) (s : AgentState) :
    stepFn .repair (.repairStep llm f) s =
      some (targetOfRouteR (routeAfterRepair (repairNode llm f s)), repairNode llm f s) := rfl

lemma routeAfterRepair_sql_again (s : AgentState) (hrc : s.repairCount < 2)
    (ht : s.repairType = some .sql) : routeAfterRepair s = .toNlSql := by
  unfold routeAfterRepair
  rw [if_neg (by omega), ht]

lemma routeAfterRepair_end_of (s : AgentState) (hrc : 2 ≤ s.repairCount) :
    routeAfterRepair s = .toEnd := by
  unfold routeAfterRepair
  rw [if_pos hrc]

/-- C3, amended: when the classifier routes to SQL, generation succeeds and
execution fails on every attempt, the orchestrator makes only **two**
generate/execute attempts.  The second entry to the repair node raises the
counter to 2, and `_route_after_repair` then goes straight to the terminal
state: the best-effort synthesis the routing after the executor would offer
at counter ≥ 2 is never reached, because the executor never runs again.
The run terminates without raising, with no final answer and confidence
0.0 (≤ 0.3). -/
theorem C3_amended_two_attempts_then_terminal
    (q i hint raw1 raw2 sql1 sql2 e1 e2 : Str) (llm1 llm2 : SynthLLMOut)
    (f1 f2 : Option AnsVal)
    (h1 : nlToSqlForward raw1 = .ok sql1) (h2 : nlToSqlForward raw2 = .ok sql2) :
    ∃ sf : AgentState,
      runSteps [.classify .sql, .generate raw1, .execute (.error e1), .repairStep llm1 f1,
                .generate raw2, .execute (.error e2), .repairStep llm2 f2]
        (.router, initState q i hint) = some (.done, sf) ∧
      runNodes [.classify .sql, .generate raw1, .execute (.error e1), .repairStep llm1 f1,
                .generate raw2, .execute (.error e2), .repairStep llm2 f2]
        (.router, initState q i hint) =
        some [.nlSql, .executor, .repair, .nlSql, .executor, .repair, .done] ∧
      sf.repairCount = 2 ∧ sf.finalAnswer = none ∧ sf.confidence = 0 := by
  set s0 := initState q i hint with hs0
  have hstep1 : stepFn .router (.classify .sql) s0 = some (.nlSql, routerNode .sql s0) := rfl
  set s1 := routerNode .sql s0 with hs1
  have hstep2 := stepNlSql_ok raw1 sql1 s1 h1
  set s2 := nlSqlApply sql1 s1 with hs2
  have h2f := nlSqlApply_fields sql1 s1
  have hrc2 : s2.repairCount = 0 := by rw [h2f.1]; rfl
  obtain ⟨s3, hstep3, h3err, h3rc, h3conf, h3fa⟩ :=
    stepExecutor_fail e1 s2 (by rw [hrc2]; omega)
  have hrc3 : s3.repairCount = 0 := by rw [h3rc, hrc2]
  have h4 := repairNode_sql_fields llm1 f1 s3 h3err
  set s4 := repairNode llm1 f1 s3 with hs4
  have hrc4 : s4.repairCount = 1 := by rw [h4.1, hrc3]
  have hroute4 : routeAfterRepair s4 = .toNlSql :=
    routeAfterRepair_sql_again s4 (by omega) h4.2.2.2.2
  have hstep4 : stepFn .repair (.repairStep llm1 f1) s3 = some (.nlSql, s4) := by
    rw [stepRepair_eq, ← hs4, hroute4]; rfl
  have hstep5 := stepNlSql_ok raw2 sql2 s4 h2
  set s5 := nlSqlApply sql2 s4 with hs5
  have h5f := nlSqlApply_fields sql2 s4
  have hrc5 : s5.repairCount = 1 := by rw [h5f.1, hrc4]
  obtain ⟨s6, hstep6, h6err, h6rc, h6conf, h6fa⟩ :=
    stepExecutor_fail e2 s5 (by rw [hrc5]; omega)
  have hrc6 : s6.repairCount = 1 := by rw [h6rc, hrc5]
  have h7 := repairNode_sql_fields llm2 f2 s6 h6err
  set s7 := repairNode llm2 f2 s6 with hs7
  have hrc7 : s7.repairCount = 2 := by rw [h7.1, hrc6]
  have hroute7 : routeAfterRepair s7 = .toEnd :=
    routeAfterRepair_end_of s7 (by omega)
  have hstep7 : stepFn .repair (.repairStep llm2 f2) s6 = some (.done, s7) := by
    rw [stepRepair_eq, ← hs7, hroute7]; rfl
  refine ⟨s7, ?_, ?_, hrc7, h7.2.2.1, ?_⟩
  · simp only [runSteps, hstep1, hstep2, hstep3, hstep4, hstep5, hstep6, hstep7]
  · simp only [runNodes, hstep1, hstep2, hstep3, hstep4, hstep5, hstep6, hstep7,
      Option.map_some]
    rfl
  · rw [h7.2.2.2.1, h6conf, h5f.2.1, h4.2.2.2.1, h3conf, h2f.2.1]
    rfl

-- C3, counterexample to the original claim: with execution failing on
-- every attempt, the concrete run terminates after the second failed
-- attempt — the visited nodes contain no synthesizer visit and no third
-- generate/execute pair — with no final answer, counter 2 and confidence 0,
-- where the claim promised three attempts followed by best-effort synthesis.
unseal fixSqlTypos nlToSqlForward validateSqlPreflight extractTableNames dynamicRepairHints in
theorem C3_counterexample_no_third_attempt :
    runNodes
      [.classify .sql, .generate (cs "SELECT COUNT(*) AS n FROM orders"),
       .execute (.error (cs "disk I/O error")),
       .repairStep { finalAnswer := none, explanation := none, citations := none } none,
       .generate (cs "SELECT COUNT(*) AS n FROM orders"),
       .execute (.error (cs "disk I/O error")),
       .repairStep { finalAnswer := none, explanation := none, citations := none } none]
      (.router, initState (cs "How many orders in 2017?") (cs "q5") (cs "int")) =
      some [.nlSql, .executor, .repair, .nlSql, .executor, .repair, .done] ∧
    (runSteps
      [.classify .sql, .generate (cs "SELECT COUNT(*) AS n FROM orders"),
       .execute (.error (cs "disk I/O error")),
       .repairStep { finalAnswer := none, explanation := none, citations := none } none,
       .generate (cs "SELECT COUNT(*) AS n FROM orders"),
       .execute (.error (cs "disk I/O error")),
       .repairStep { finalAnswer := none, explanation := none, citations := none } none]
      (.router, initState (cs "How many orders in 2017?") (cs "q5") (cs "int"))).map
        (fun ns => (ns.1, ns.2.repairCount, ns.2.finalAnswer, ns.2.confidence)) =
      some (.done, 2, none, 0) := by
  constructor
  · decide
  · decide

-- Witness for the amended C3 theorem at concrete generation outputs.
unseal fixSqlTypos nlToSqlForward validateSqlPreflight in
theorem C3_amended_witness :
    ∃ sf : AgentState,
      runSteps [.classify .sql, .generate (cs "SELECT 1 FROM t"),
                .execute (.error (cs "locked")),
                .repairStep { finalAnswer := none, explanation := none, citations := none } none,
                .generate (cs "SELECT 1 FROM t"), .execute (.error (cs "locked")),
                .repairStep { finalAnswer := none, explanation := none, citations := none } none]
        (.router, initState (cs "q") (cs "q6") (cs "int")) = some (.done, sf) ∧
      runNodes [.classify .sql, .generate (cs "SELECT 1 FROM t"),
                .execute (.error (cs "locked")),
                .repairStep { finalAnswer := none, explanation := none, citations := none } none,
                .generate (cs "SELECT 1 FROM t"), .execute (.error (cs "locked")),
                .repairStep { finalAnswer := none, explanation := none, citations := none } none]
        (.router, initState (cs "q") (cs "q6") (cs "int")) =
        some [.nlSql, .executor, .repair, .nlSql, .executor, .repair, .done] ∧
      sf.repairCount = 2 ∧ sf.finalAnswer = none ∧ sf.confidence = 0 :=
  C3_amended_two_attempts_then_terminal (cs "q") (cs "q6") (cs "int")
    (cs "SELECT 1 FROM t") (cs "SELECT 1 FROM t")
    (cs "SELECT 1 FROM t") (cs "SELECT 1 FROM t")
    (cs "locked") (cs "locked")
    { finalAnswer := none, explanation := none, citations := none }
    { finalAnswer := none, explanation := none, citations := none }
    none none (by rfl) (by rfl)

end RetailAgent
